import Mathlib

/-!
Verification of the balance/ledger subsystem, the TTL caches, and the
scheduled-action pollers of the Discord shop bot
(`ext/balance_manager.py`, `ext/product_manager.py`,
`cogs/reminders.py`, `cogs/giveaway.py`, schema in `database.py`).

The SQLite tables are embedded as association lists keyed by their primary
keys; string comparison in Lean is byte-exact, which matches the
`COLLATE binary` used by every query of `balance_manager.py`.
-/

/-- Modelled from the spec: the `Balance` value object imported from
`ext/constants.py`, a file not present in the sources.  The spec describes it
as "balances as a set of named denominations (here three: small/medium/large
units)"; `balance_manager.py` constructs it from the three integer columns
`balance_wl`, `balance_dl`, `balance_bgl`. -/
structure Balance where
  wl : Int
  dl : Int
  bgl : Int
deriving DecidableEq, Repr

/-- A row of the `transactions` table (`database.py`): append-only log with
the old and new balance snapshots.  The source stores the snapshots as
`Balance.format()` strings; `format` lives in the missing `ext/constants.py`,
so (modelled from the spec: "snapshot of old balance, snapshot of new
balance") the snapshots are kept as `Balance` values directly. -/
structure TransactionRow where
  growid : String
  transaction_type : String
  details : String
  old_balance : Balance
  new_balance : Balance
deriving DecidableEq, Repr

/-- The durable store: `users` (growid PRIMARY KEY, balances DEFAULT 0),
`user_growid` (discord_id PRIMARY KEY → growid) and the append-only
`transactions` table, per the schema in `database.py`. -/
structure LedgerState where
  users : List (String × Balance)
  user_growid : List (String × String)
  transactions : List TransactionRow
deriving DecidableEq, Repr

/-- `SELECT balance_wl, balance_dl, balance_bgl FROM users WHERE growid = ?
COLLATE binary` — byte-exact lookup on the primary key. -/
def lookupUser (users : List (String × Balance)) (growid : String) : Option Balance :=
  (users.find? (fun p => p.1 == growid)).map (fun p => p.2)

/-- `UPDATE users SET balance_wl = ?, ... WHERE growid = ? COLLATE binary`. -/
def setUser (users : List (String × Balance)) (growid : String) (b : Balance) :
    List (String × Balance) :=
  users.map (fun p => if p.1 == growid then (p.1, b) else p)

/-- `INSERT OR REPLACE INTO user_growid (discord_id, growid) VALUES (?, ?)` —
upsert on the `discord_id` primary key. -/
def upsertLink (links : List (String × String)) (discord_id growid : String) :
    List (String × String) :=
  if (links.find? (fun p => p.1 == discord_id)).isSome then
    links.map (fun p => if p.1 == discord_id then (discord_id, growid) else p)
  else
    links ++ [(discord_id, growid)]

/-- `BalanceManagerService.update_balance` (`ext/balance_manager.py:172-251`).
Reads the current balance (byte-exact), raises `TransactionError` when the
user is absent, clamps each denomination independently with `max(0, ·)`,
writes the new balance, appends one transaction row, and commits.  The
enclosing `except Exception` catches every failure — including the
`TransactionError` it raised itself — rolls the transaction back and returns
`None`.  `commit_ok` models whether `conn.commit()` succeeds (a `StoreError`
in the spec's taxonomy); on any failure the rollback restores the state
unchanged and the caller sees `none`. -/
def update_balance (commit_ok : Bool) (st : LedgerState) (growid : String)
    (wl dl bgl : Int) (details transaction_type : String) :
    LedgerState × Option Balance :=
  match lookupUser st.users growid with
  | none => (st, none)
  | some current =>
      let old_balance := current
      let new_wl := max 0 (current.wl + wl)
      let new_dl := max 0 (current.dl + dl)
      let new_bgl := max 0 (current.bgl + bgl)
      let new_balance : Balance := ⟨new_wl, new_dl, new_bgl⟩
      let st' : LedgerState :=
        { st with
          users := setUser st.users growid new_balance,
          transactions := st.transactions ++
            [⟨growid, transaction_type, details, old_balance, new_balance⟩] }
      if commit_ok then (st', some new_balance) else (st, none)

/-- `BalanceManagerService.register_user` (`ext/balance_manager.py:74-125`).
Checks for an existing growid with `COLLATE binary` (byte-exact); the
`ValueError` branch fires only when the found row differs from the argument,
which byte-exact matching makes impossible; then `INSERT OR IGNORE` into
`users` and `INSERT OR REPLACE` into `user_growid`, returning `True`. -/
def register_user (st : LedgerState) (discord_id growid : String) :
    Bool × LedgerState :=
  match st.users.find? (fun p => p.1 == growid) with
  | some existing =>
      if existing.1 ≠ growid then
        (false, st)
      else
        (true, { st with
          user_growid := upsertLink st.user_growid discord_id growid })
  | none =>
      (true, { st with
        users := st.users ++ [(growid, ⟨0, 0, 0⟩)],
        user_growid := upsertLink st.user_growid discord_id growid })

/-- A balance whose three denominations are all non-negative. -/
def NonNeg (b : Balance) : Prop := 0 ≤ b.wl ∧ 0 ≤ b.dl ∧ 0 ≤ b.bgl

/-- One requested mutation, as issued by a caller of `update_balance`. -/
structure MutReq where
  commit_ok : Bool
  growid : String
  wl : Int
  dl : Int
  bgl : Int
  details : String
  transaction_type : String

/-- Apply one mutation request to the store, keeping only the state. -/
def applyMut (st : LedgerState) (r : MutReq) : LedgerState :=
  (update_balance r.commit_ok st r.growid r.wl r.dl r.bgl r.details r.transaction_type).1

/-- Apply a sequence of mutation requests. -/
def runMuts (st : LedgerState) (rs : List MutReq) : LedgerState :=
  rs.foldl applyMut st

theorem find?_key_cons {κ α : Type} [BEq κ] [LawfulBEq κ] [DecidableEq κ]
    (rest : List (κ × α)) (p : κ × α) (g : κ) :
    List.find? (fun q => q.1 == g) (p :: rest) =
      if p.1 = g then some p else List.find? (fun q => q.1 == g) rest := by
  by_cases hpg : p.1 = g
  · rw [if_pos hpg]
    exact List.find?_cons_of_pos _ (by simp [hpg])
  · rw [if_neg hpg]
    exact List.find?_cons_of_neg _ (by simp [hpg])

theorem lookupUser_setUser_self (users : List (String × Balance)) (g : String)
    (b0 b : Balance) (h : lookupUser users g = some b0) :
    lookupUser (setUser users g b) g = some b := by
  induction users with
  | nil => simp [lookupUser] at h
  | cons p rest ih =>
    by_cases hpg : p.1 = g
    · have hset : setUser (p :: rest) g b = (p.1, b) :: setUser rest g b := by
        simp [setUser, hpg]
      rw [lookupUser, hset, find?_key_cons]
      dsimp only
      rw [if_pos hpg]
      rfl
    · have hset : setUser (p :: rest) g b = p :: setUser rest g b := by
        simp [setUser, hpg]
      have h' : lookupUser rest g = some b0 := by
        rw [lookupUser, find?_key_cons, if_neg hpg] at h
        exact h
      have hres := ih h'
      rw [lookupUser, hset, find?_key_cons, if_neg hpg]
      exact hres

theorem mem_setUser {users : List (String × Balance)} {g : String} {b : Balance}
    {q : String × Balance} (h : q ∈ setUser users g b) : q ∈ users ∨ q.2 = b := by
  simp only [setUser, List.mem_map] at h
  obtain ⟨p, hp, hq⟩ := h
  cases hpg : (p.1 == g) with
  | true => right; rw [← hq]; simp [hpg]
  | false => left; rw [← hq]; simpa [hpg] using hp

theorem applyMut_nonneg {st : LedgerState} (r : MutReq)
    (h : ∀ p ∈ st.users, NonNeg p.2) : ∀ p ∈ (applyMut st r).users, NonNeg p.2 := by
  unfold applyMut update_balance
  cases hl : lookupUser st.users r.growid with
  | none => simpa using h
  | some current =>
    cases hc : r.commit_ok with
    | false => simpa using h
    | true =>
      intro p hp
      simp only [] at hp
      rcases mem_setUser hp with hmem | heq
      · exact h p hmem
      · rw [heq]
        exact ⟨le_max_left 0 _, le_max_left 0 _, le_max_left 0 _⟩

theorem runMuts_cons (st : LedgerState) (r : MutReq) (rs : List MutReq) :
    runMuts st (r :: rs) = runMuts (applyMut st r) rs := rfl

theorem transactions_prefix (rs : List MutReq) (st : LedgerState) :
    st.transactions <+: (runMuts st rs).transactions := by
  induction rs generalizing st with
  | nil => simp [runMuts]
  | cons r rest ih =>
    have h1 : st.transactions <+: (applyMut st r).transactions := by
      unfold applyMut update_balance
      cases hl : lookupUser st.users r.growid with
      | none => simp
      | some current =>
        cases hc : r.commit_ok with
        | false => simp
        | true => simp
    exact (runMuts_cons st r rest ▸ h1.trans (ih (applyMut st r)))

/-- C1: a successful `update_balance` on an existing account sets each of the
three denominations independently to `max 0 (current + delta)`, persists
exactly those values in the `users` table, and returns them as the new
balance; consequently, along any sequence of mutations started from a store
whose balances are non-negative (the schema default is 0), every stored
denomination stays non-negative. -/
theorem update_balance_clamps_and_stays_nonneg :
    (∀ (st : LedgerState) (growid : String) (wl dl bgl : Int)
      (details ttype : String) (b : Balance),
      lookupUser st.users growid = some b →
      (update_balance true st growid wl dl bgl details ttype).2 =
          some ⟨max 0 (b.wl + wl), max 0 (b.dl + dl), max 0 (b.bgl + bgl)⟩ ∧
      lookupUser (update_balance true st growid wl dl bgl details ttype).1.users growid =
          some ⟨max 0 (b.wl + wl), max 0 (b.dl + dl), max 0 (b.bgl + bgl)⟩) ∧
    (∀ (st : LedgerState) (rs : List MutReq),
      (∀ p ∈ st.users, NonNeg p.2) → ∀ p ∈ (runMuts st rs).users, NonNeg p.2) := by
  constructor
  · intro st growid wl dl bgl details ttype b hb
    unfold update_balance
    rw [hb]
    exact ⟨rfl, lookupUser_setUser_self st.users growid b _ hb⟩
  · intro st rs h
    induction rs generalizing st with
    | nil => simpa [runMuts] using h
    | cons r rest ih =>
      rw [runMuts_cons]
      exact ih (applyMut st r) (applyMut_nonneg r h)

/-- Witness for C1: starting from the account "Alice" at balance (0,0,0), a
mutation of +100 WL yields the stored and returned balance (100,0,0), and the
non-negativity invariant holds after the run. -/
theorem update_balance_clamps_and_stays_nonneg_witness :
    (update_balance true ⟨[("Alice", ⟨0, 0, 0⟩)], [], []⟩ "Alice" 100 0 0 "test" "admin_add").2 =
        some ⟨max 0 ((0 : Int) + 100), max 0 ((0 : Int) + 0), max 0 ((0 : Int) + 0)⟩ ∧
    (∀ p ∈ (runMuts ⟨[("Alice", ⟨0, 0, 0⟩)], [], []⟩
        [⟨true, "Alice", 100, 0, 0, "test", "admin_add"⟩]).users, NonNeg p.2) :=
  ⟨(update_balance_clamps_and_stays_nonneg.1 ⟨[("Alice", ⟨0, 0, 0⟩)], [], []⟩
      "Alice" 100 0 0 "test" "admin_add" ⟨0, 0, 0⟩ rfl).1,
    update_balance_clamps_and_stays_nonneg.2 ⟨[("Alice", ⟨0, 0, 0⟩)], [], []⟩
      [⟨true, "Alice", 100, 0, 0, "test", "admin_add"⟩]
      (by intro p hp; simp at hp; rw [hp]; exact ⟨le_refl 0, le_refl 0, le_refl 0⟩)⟩

/-- C2: a successful `update_balance` appends exactly one row to the
`transactions` table — the new table is the old one plus a single record
whose `old_balance` is the snapshot read before the mutation and whose
`new_balance` is the clamped balance written — and the log is append-only, so
that record survives unchanged (as part of a stable prefix) under any further
sequence of mutations. -/
theorem update_balance_appends_one_transaction :
    ∀ (st : LedgerState) (growid : String) (wl dl bgl : Int)
      (details ttype : String) (b : Balance),
      lookupUser st.users growid = some b →
      (update_balance true st growid wl dl bgl details ttype).1.transactions =
          st.transactions ++ [⟨growid, ttype, details, b,
            ⟨max 0 (b.wl + wl), max 0 (b.dl + dl), max 0 (b.bgl + bgl)⟩⟩] ∧
      (update_balance true st growid wl dl bgl details ttype).2 =
          some ⟨max 0 (b.wl + wl), max 0 (b.dl + dl), max 0 (b.bgl + bgl)⟩ ∧
      ∀ rs : List MutReq,
        (update_balance true st growid wl dl bgl details ttype).1.transactions <+:
          (runMuts (update_balance true st growid wl dl bgl details ttype).1 rs).transactions := by
  intro st growid wl dl bgl details ttype b hb
  unfold update_balance
  rw [hb]
  exact ⟨rfl, rfl, fun rs => transactions_prefix rs _⟩

/-- Witness for C2: mutating "Alice" from (7,0,0) by -10 WL appends the single
record with old snapshot (7,0,0) and new snapshot (0,0,0), and that log is a
prefix of the log after one further mutation. -/
theorem update_balance_appends_one_transaction_witness :
    (update_balance true ⟨[("Alice", ⟨7, 0, 0⟩)], [], []⟩ "Alice" (-10) 0 0 "buy" "purchase").1.transactions =
        [] ++ [⟨"Alice", "purchase", "buy", ⟨7, 0, 0⟩,
          ⟨max 0 ((7 : Int) + (-10)), max 0 ((0 : Int) + 0), max 0 ((0 : Int) + 0)⟩⟩] ∧
    (update_balance true ⟨[("Alice", ⟨7, 0, 0⟩)], [], []⟩ "Alice" (-10) 0 0 "buy" "purchase").2 =
        some ⟨max 0 ((7 : Int) + (-10)), max 0 ((0 : Int) + 0), max 0 ((0 : Int) + 0)⟩ ∧
    ∀ rs : List MutReq,
      (update_balance true ⟨[("Alice", ⟨7, 0, 0⟩)], [], []⟩ "Alice" (-10) 0 0 "buy" "purchase").1.transactions <+:
        (runMuts (update_balance true ⟨[("Alice", ⟨7, 0, 0⟩)], [], []⟩ "Alice" (-10) 0 0 "buy" "purchase").1 rs).transactions :=
  update_balance_appends_one_transaction ⟨[("Alice", ⟨7, 0, 0⟩)], [], []⟩
    "Alice" (-10) 0 0 "buy" "purchase" ⟨7, 0, 0⟩ rfl

/-- C4 counterexample: a store failure on an *existing* account produces the
byte-identical observable outcome `(st, none)` as a genuinely missing
account, so the caller cannot distinguish an `AccountNotFound` failure — the
internally raised `TransactionError` is swallowed by the generic
`except Exception` handler — and `none` is not returned *exactly* when the
account is missing. -/
theorem update_balance_notfound_counterexample :
    update_balance false ⟨[("Alice", ⟨5, 0, 0⟩)], [], []⟩ "Alice" 1 0 0 "d" "t" =
      (⟨[("Alice", ⟨5, 0, 0⟩)], [], []⟩, none) ∧
    update_balance true ⟨[("Alice", ⟨5, 0, 0⟩)], [], []⟩ "Bob" 1 0 0 "d" "t" =
      (⟨[("Alice", ⟨5, 0, 0⟩)], [], []⟩, none) :=
  ⟨rfl, rfl⟩

/-- C4 amended: when the store itself does not fail, `update_balance` returns
`none` exactly when the account id does not exist, and in that case the store
is left completely unchanged (no balance write, no transaction row); the
failure is reported only as a generic `none`, since the `TransactionError` is
caught inside the method. -/
theorem update_balance_none_iff_missing :
    ∀ (st : LedgerState) (growid : String) (wl dl bgl : Int) (details ttype : String),
      ((update_balance true st growid wl dl bgl details ttype).2 = none ↔
        lookupUser st.users growid = none) ∧
      (lookupUser st.users growid = none →
        (update_balance true st growid wl dl bgl details ttype).1 = st) := by
  intro st growid wl dl bgl details ttype
  unfold update_balance
  cases hl : lookupUser st.users growid with
  | none => simp
  | some current => simp

/-- Witness for C4 amended: on an empty store, mutating the account "Ghost"
returns `none` and leaves the store unchanged. -/
theorem update_balance_none_iff_missing_witness :
    (update_balance true ⟨[], [], []⟩ "Ghost" 1 0 0 "d" "t").1 = ⟨[], [], []⟩ :=
  (update_balance_none_iff_missing ⟨[], [], []⟩ "Ghost" 1 0 0 "d" "t").2 rfl

/-- C5 counterexample: registering the byte-identical already-existing growid
"Alice" *succeeds* (returns `True`) instead of failing with a
`DuplicateAccount` error: the `INSERT OR IGNORE` silently keeps the existing
row and the method returns `True`. -/
theorem register_user_duplicate_counterexample :
    (register_user ⟨[("Alice", ⟨5, 0, 0⟩)], [], []⟩ "111" "Alice").1 = true ∧
    (register_user ⟨[("Alice", ⟨5, 0, 0⟩)], [], []⟩ "111" "Alice").2.users =
      [("Alice", ⟨5, 0, 0⟩)] := by
  constructor <;> rfl

/-- C5 amended: `register_user` never reports failure in the fault-free
model: it returns `True` for every input.  When the growid already exists
byte-identically, the `users` table is left unchanged (the duplicate is
silently ignored, not rejected); when no byte-identical growid exists — even
if a case-variant does — a fresh account row with zero balances is appended
(the existence comparison is byte-exact, and the "different case" rejection
branch is unreachable because the `COLLATE binary` query can only return a
byte-identical row). -/
theorem register_user_duplicate_succeeds :
    ∀ (st : LedgerState) (discord_id growid : String),
      (register_user st discord_id growid).1 = true ∧
      (∀ b, lookupUser st.users growid = some b →
        (register_user st discord_id growid).2.users = st.users) ∧
      (lookupUser st.users growid = none →
        (register_user st discord_id growid).2.users =
          st.users ++ [(growid, ⟨0, 0, 0⟩)]) := by
  intro st d g
  refine ⟨?_, ?_, ?_⟩
  · unfold register_user
    cases hf : st.users.find? (fun p => p.1 == g) with
    | none => rfl
    | some existing =>
      have hex : existing.1 = g := by simpa using List.find?_some hf
      simp [hex]
  · intro b hb
    unfold register_user
    obtain ⟨q, hq, hq2⟩ : ∃ q, st.users.find? (fun p => p.1 == g) = some q ∧ q.2 = b := by
      simpa [lookupUser] using hb
    have hex : q.1 = g := by simpa using List.find?_some hq
    rw [hq]
    simp [hex]
  · intro hn
    have hf : st.users.find? (fun p => p.1 == g) = none := by
      simpa [lookupUser] using hn
    unfold register_user
    rw [hf]

/-- Witness for C5 amended: registering a fresh growid "Bob" on a store that
holds only the case-variant "bob" succeeds and appends a new zero-balance
account. -/
theorem register_user_duplicate_succeeds_witness :
    (register_user ⟨[("bob", ⟨5, 0, 0⟩)], [], []⟩ "111" "Bob").1 = true ∧
    (register_user ⟨[("bob", ⟨5, 0, 0⟩)], [], []⟩ "111" "Bob").2.users =
      [("bob", ⟨5, 0, 0⟩)] ++ [("Bob", ⟨0, 0, 0⟩)] :=
  ⟨(register_user_duplicate_succeeds ⟨[("bob", ⟨5, 0, 0⟩)], [], []⟩ "111" "Bob").1,
    (register_user_duplicate_succeeds ⟨[("bob", ⟨5, 0, 0⟩)], [], []⟩ "111" "Bob").2.2 rfl⟩

/-- `BalanceManagerService._cache_timeout` (`ext/balance_manager.py:27`). -/
def balance_cache_timeout : Nat := 30

/-- `ProductManagerService._cache_timeout` (`ext/product_manager.py:27`). -/
def product_cache_timeout : Nat := 60

/-- One in-memory cache entry `{'value': ..., 'timestamp': ...}`. -/
structure CEntry (α : Type) where
  value : α
  timestamp : Nat
deriving DecidableEq, Repr

/-- The `self._cache` dict: key → entry. -/
abbrev Cache (α : Type) : Type := List (String × CEntry α)

/-- `ProductManagerService._get_cached` (`ext/product_manager.py:36-42`): a
present entry younger than the timeout is returned; a present stale entry is
deleted lazily and the read misses; the method returns the (possibly pruned)
cache alongside the result. -/
def get_cached {α : Type} (timeout : Nat) (cache : Cache α) (key : String)
    (now : Nat) : Option α × Cache α :=
  match cache.find? (fun p => p.1 == key) with
  | some q =>
      if now - q.2.timestamp < timeout then (some q.2.value, cache)
      else (none, cache.filter (fun p => !(p.1 == key)))
  | none => (none, cache)

/-- `ProductManagerService._set_cached` (`ext/product_manager.py:44-48`):
dict assignment, an upsert on the key. -/
def set_cached {α : Type} (cache : Cache α) (key : String) (value : α)
    (now : Nat) : Cache α :=
  if (cache.find? (fun p => p.1 == key)).isSome then
    cache.map (fun p => if p.1 == key then (key, ⟨value, now⟩) else p)
  else cache ++ [(key, ⟨value, now⟩)]

/-- `BalanceManagerService.get_balance` (`ext/balance_manager.py:127-163`):
the same lazy-TTL cache check written inline (timeout 30), then a single
`SELECT` from `users`; the cache is repopulated only when the row exists
(a missing row returns `None` and caches nothing).  The third component
counts the store reads performed by the call. -/
def get_balance (cache : Cache Balance) (users : List (String × Balance))
    (growid : String) (now : Nat) : Option Balance × Cache Balance × Nat :=
  let cache_key := "balance_" ++ growid
  match cache.find? (fun p => p.1 == cache_key) with
  | some q =>
      if now - q.2.timestamp < balance_cache_timeout then (some q.2.value, cache, 0)
      else
        let cache1 := cache.filter (fun p => !(p.1 == cache_key))
        match lookupUser users growid with
        | some balance => (some balance, set_cached cache1 cache_key balance now, 1)
        | none => (none, cache1, 1)
  | none =>
      match lookupUser users growid with
      | some balance => (some balance, set_cached cache cache_key balance now, 1)
      | none => (none, cache, 1)

/-- A row of the `products` table (`database.py`). -/
structure ProductRow where
  code : String
  name : String
  price : Int
  description : Option String
deriving DecidableEq, Repr

/-- A row of the `stock` table (`database.py`). -/
structure StockRow where
  id : Nat
  product_code : String
  content : String
  added_by : String
  status : String
deriving DecidableEq, Repr

/-- Modelled from the spec: `STATUS_AVAILABLE` is imported from the missing
`ext/constants.py`; the `stock.status` column's schema in `database.py`
defaults to `'available'` with `CHECK (status IN ('available', 'sold',
'deleted'))`. -/
def STATUS_AVAILABLE : String := "available"

/-- Python semantics of the `code()` / `product_code()` call sites in
`ext/product_manager.py`: a `str` object is not callable, so evaluating the
call raises `TypeError` before the SQL statement ever executes. -/
def call_str (_code : String) : Except Unit String := Except.error ()

/-- `ProductManagerService.create_product` (`ext/product_manager.py:50-86`):
the parameter tuple `(code(), name, price, description)` is evaluated before
`cursor.execute`, so `code()` raises first; the `except` block rolls back and
re-raises, so the error propagates to the caller. -/
def create_product (products : List ProductRow) (cache : Cache ProductRow)
    (code name : String) (price : Int) (description : Option String)
    (now : Nat) :
    Except Unit (List ProductRow × Cache ProductRow × ProductRow) :=
  match call_str code with
  | Except.error e => Except.error e
  | Except.ok c =>
      let result : ProductRow := ⟨c, name, price, description⟩
      Except.ok (products ++ [result],
        set_cached cache ("product_" ++ code) result now, result)

/-- `ProductManagerService.get_product` (`ext/product_manager.py:88-114`):
cache first (the key is the f-string `"product_" ++ code`, no call); on a
miss, `code()` raises inside the `try`, the handler returns `None`, and no
store read happens.  The third component counts store reads. -/
def get_product (products : List ProductRow) (cache : Cache ProductRow)
    (code : String) (now : Nat) : Option ProductRow × Cache ProductRow × Nat :=
  let r := get_cached product_cache_timeout cache ("product_" ++ code) now
  match r.1 with
  | some p => (some p, r.2, 0)
  | none =>
      match call_str code with
      | Except.error _ => (none, r.2, 0)
      | Except.ok c =>
          match products.find? (fun p => p.code == c) with
          | some row => (some row, set_cached r.2 ("product_" ++ code) row now, 1)
          | none => (none, r.2, 1)

/-- `ProductManagerService.get_all_products` (`ext/product_manager.py:116-136`):
no product-code parameter, so no broken call; `if cached:` is Python
truthiness, so a cached *empty* list counts as a miss.  Reads all products
ordered by code and repopulates the cache. -/
def get_all_products (products : List ProductRow)
    (cache : Cache (List ProductRow)) (now : Nat) :
    List ProductRow × Cache (List ProductRow) × Nat :=
  let r := get_cached product_cache_timeout cache "all_products" now
  match r.1 with
  | some ps =>
      if ps.isEmpty then
        let ps' := (products.mergeSort (fun a b => a.code ≤ b.code))
        (ps', set_cached r.2 "all_products" ps' now, 1)
      else (ps, r.2, 0)
  | none =>
      let ps' := (products.mergeSort (fun a b => a.code ≤ b.code))
      (ps', set_cached r.2 "all_products" ps' now, 1)

/-- `ProductManagerService.add_stock_item` (`ext/product_manager.py:138-167`):
`product_code()` raises inside the `try`, the handler rolls back and returns
`False`, so no stock row is ever inserted. -/
def add_stock_item (stock : List StockRow) (countCache : Cache Int)
    (product_code content added_by : String) :
    Bool × List StockRow × Cache Int :=
  match call_str product_code with
  | Except.error _ => (false, stock, countCache)
  | Except.ok c =>
      (true, stock ++ [⟨stock.length, c, content, added_by, STATUS_AVAILABLE⟩],
        countCache.filter (fun p => !(p.1 == "stock_count_" ++ product_code)))

/-- `ProductManagerService.get_available_stock`
(`ext/product_manager.py:169-193`): `product_code()` raises and the `except`
block re-raises, so the call fails for every input. -/
def get_available_stock (stock : List StockRow) (product_code : String)
    (quantity : Nat) : Except Unit (List StockRow) :=
  match call_str product_code with
  | Except.error e => Except.error e
  | Except.ok c =>
      Except.ok ((stock.filter
        (fun s => s.product_code == c && s.status == STATUS_AVAILABLE)).take quantity)

/-- `ProductManagerService.get_stock_count` (`ext/product_manager.py:195-219`):
cache first (`cached is not None`, so a cached 0 is a hit); on a miss,
`product_code()` raises inside the `try` and the handler returns 0, with no
store read.  The third component counts store reads. -/
def get_stock_count (stock : List StockRow) (countCache : Cache Int)
    (product_code : String) (now : Nat) : Int × Cache Int × Nat :=
  let cache_key := "stock_count_" ++ product_code
  let r := get_cached product_cache_timeout countCache cache_key now
  match r.1 with
  | some n => (n, r.2, 0)
  | none =>
      match call_str product_code with
      | Except.error _ => (0, r.2, 0)
      | Except.ok c =>
          let n : Int :=
            ((stock.filter (fun s => s.product_code == c &&
              s.status == STATUS_AVAILABLE)).length : Int)
          (n, set_cached r.2 cache_key n now, 1)

/-- C10: every `ProductManagerService` operation that would reach the store
with a product-code parameter evaluates `code()` — calling a `str`, which
raises `TypeError` for every string — so `create_product` raises for every
input, `get_product` returns `None` whenever the cache misses,
`add_stock_item` returns `False` for every input, `get_available_stock`
raises for every input, and `get_stock_count` returns 0 whenever its count
cache misses. -/
theorem product_code_called_breaks_operations :
    (∀ (products : List ProductRow) (cache : Cache ProductRow)
      (code name : String) (price : Int) (description : Option String) (now : Nat),
      create_product products cache code name price description now =
        Except.error ()) ∧
    (∀ (products : List ProductRow) (cache : Cache ProductRow) (code : String)
      (now : Nat),
      (get_cached product_cache_timeout cache ("product_" ++ code) now).1 = none →
      (get_product products cache code now).1 = none ∧
      (get_product products cache code now).2.2 = 0) ∧
    (∀ (stock : List StockRow) (countCache : Cache Int)
      (product_code content added_by : String),
      (add_stock_item stock countCache product_code content added_by).1 = false ∧
      (add_stock_item stock countCache product_code content added_by).2.1 = stock) ∧
    (∀ (stock : List StockRow) (product_code : String) (quantity : Nat),
      get_available_stock stock product_code quantity = Except.error ()) ∧
    (∀ (stock : List StockRow) (countCache : Cache Int) (product_code : String)
      (now : Nat),
      (get_cached product_cache_timeout countCache ("stock_count_" ++ product_code) now).1 = none →
      (get_stock_count stock countCache product_code now).1 = 0 ∧
      (get_stock_count stock countCache product_code now).2.2 = 0) := by
  refine ⟨?_, ?_, ?_, ?_, ?_⟩
  · intro products cache code name price description now
    rfl
  · intro products cache code now h
    unfold get_product
    dsimp only
    rw [h]
    exact ⟨rfl, rfl⟩
  · intro stock countCache pc content ab
    exact ⟨rfl, rfl⟩
  · intro stock pc q
    rfl
  · intro stock countCache pc now h
    unfold get_stock_count
    dsimp only
    rw [h]
    exact ⟨rfl, rfl⟩

/-- Witness for C10: on empty tables and empty caches (a cache miss), all
five operations exhibit the broken behavior at concrete inputs. -/
theorem product_code_called_breaks_operations_witness :
    create_product [] [] "DL" "Diamond Lock" 100 none 0 = Except.error () ∧
    (get_product [] [] "DL" 0).1 = none ∧
    (add_stock_item [] [] "DL" "content" "admin").1 = false ∧
    get_available_stock [] "DL" 1 = Except.error () ∧
    (get_stock_count [] [] "DL" 0).1 = 0 :=
  ⟨product_code_called_breaks_operations.1 [] [] "DL" "Diamond Lock" 100 none 0,
    (product_code_called_breaks_operations.2.1 [] [] "DL" 0 rfl).1,
    (product_code_called_breaks_operations.2.2.1 [] [] "DL" "content" "admin").1,
    product_code_called_breaks_operations.2.2.2.1 [] "DL" 1,
    (product_code_called_breaks_operations.2.2.2.2 [] [] "DL" 0 rfl).1⟩

/-- C6 counterexample: a `get_product` read past the TTL (entry cached at
time 0, read at time 60 with the 60-second product timeout) deletes the stale
entry but performs *zero* store reads and repopulates nothing — the `code()`
`TypeError` aborts before the query — refuting "a read past the TTL …
performs exactly one store read, and repopulates the cache with the
result". -/
theorem ttl_read_counterexample :
    get_product [⟨"X", "n", 5, none⟩]
      [("product_X", ⟨⟨"X", "n", 5, none⟩, 0⟩)] "X" 60 = (none, [], 0) := by
  rfl

/-- C6 amended: the cache timeouts are 30 s (`BalanceManagerService`) and
60 s (`ProductManagerService`); any `_get_cached`-style read strictly within
the TTL returns the cached value and leaves the cache alone (no store read),
and a read past the TTL lazily deletes the stale entry.  Past the TTL,
`get_balance` performs exactly one store read and repopulates the cache when
the row exists, while a product-code read (`get_product`) performs no store
read at all and repopulates nothing, because `code()` raises `TypeError`
before the query executes. -/
theorem ttl_cache_read_behavior :
    (balance_cache_timeout = 30 ∧ product_cache_timeout = 60) ∧
    (∀ (α : Type) (timeout : Nat) (cache : Cache α) (key : String) (now : Nat)
      (q : String × CEntry α),
      cache.find? (fun p => p.1 == key) = some q →
      now - q.2.timestamp < timeout →
      get_cached timeout cache key now = (some q.2.value, cache)) ∧
    (∀ (α : Type) (timeout : Nat) (cache : Cache α) (key : String) (now : Nat)
      (q : String × CEntry α),
      cache.find? (fun p => p.1 == key) = some q →
      ¬ (now - q.2.timestamp < timeout) →
      get_cached timeout cache key now =
        (none, cache.filter (fun p => !(p.1 == key)))) ∧
    (∀ (cache : Cache Balance) (users : List (String × Balance))
      (growid : String) (now : Nat) (q : String × CEntry Balance),
      cache.find? (fun p => p.1 == ("balance_" ++ growid)) = some q →
      now - q.2.timestamp < balance_cache_timeout →
      get_balance cache users growid now = (some q.2.value, cache, 0)) ∧
    (∀ (cache : Cache Balance) (users : List (String × Balance))
      (growid : String) (now : Nat) (q : String × CEntry Balance) (b : Balance),
      cache.find? (fun p => p.1 == ("balance_" ++ growid)) = some q →
      ¬ (now - q.2.timestamp < balance_cache_timeout) →
      lookupUser users growid = some b →
      get_balance cache users growid now =
        (some b,
          set_cached (cache.filter (fun p => !(p.1 == ("balance_" ++ growid))))
            ("balance_" ++ growid) b now, 1)) ∧
    (∀ (products : List ProductRow) (cache : Cache ProductRow) (code : String)
      (now : Nat) (q : String × CEntry ProductRow),
      cache.find? (fun p => p.1 == ("product_" ++ code)) = some q →
      ¬ (now - q.2.timestamp < product_cache_timeout) →
      get_product products cache code now =
        (none, cache.filter (fun p => !(p.1 == ("product_" ++ code))), 0)) := by
  refine ⟨⟨rfl, rfl⟩, ?_, ?_, ?_, ?_, ?_⟩
  · intro α timeout cache key now q hf hfresh
    unfold get_cached
    rw [hf]
    dsimp only
    rw [if_pos hfresh]
  · intro α timeout cache key now q hf hstale
    unfold get_cached
    rw [hf]
    dsimp only
    rw [if_neg hstale]
  · intro cache users growid now q hf hfresh
    unfold get_balance
    dsimp only
    rw [hf]
    dsimp only
    rw [if_pos hfresh]
  · intro cache users growid now q b hf hstale hb
    unfold get_balance
    dsimp only
    rw [hf]
    dsimp only
    rw [if_neg hstale, hb]
  · intro products cache code now q hf hstale
    unfold get_product
    dsimp only
    have hgc : get_cached product_cache_timeout cache ("product_" ++ code) now =
        (none, cache.filter (fun p => !(p.1 == ("product_" ++ code)))) := by
      unfold get_cached
      rw [hf]
      dsimp only
      rw [if_neg hstale]
    rw [hgc]
    rfl

/-- Witness for C6 amended: at concrete states, a within-TTL balance read
hits the cache with zero store reads, and a past-TTL balance read of an
existing account performs one store read and repopulates. -/
theorem ttl_cache_read_behavior_witness :
    get_balance [("balance_A", ⟨⟨1, 2, 3⟩, 0⟩)] [("A", ⟨9, 9, 9⟩)] "A" 29 =
      (some ⟨1, 2, 3⟩, [("balance_A", ⟨⟨1, 2, 3⟩, 0⟩)], 0) ∧
    get_balance [("balance_A", ⟨⟨1, 2, 3⟩, 0⟩)] [("A", ⟨9, 9, 9⟩)] "A" 30 =
      (some ⟨9, 9, 9⟩,
        set_cached (List.filter (fun p => !(p.1 == "balance_A"))
          [("balance_A", ⟨⟨1, 2, 3⟩, 0⟩)]) "balance_A" ⟨9, 9, 9⟩ 30, 1) :=
  ⟨ttl_cache_read_behavior.2.2.2.1 [("balance_A", ⟨⟨1, 2, 3⟩, 0⟩)]
      [("A", ⟨9, 9, 9⟩)] "A" 29 ("balance_A", ⟨⟨1, 2, 3⟩, 0⟩) rfl (by decide),
    ttl_cache_read_behavior.2.2.2.2.1 [("balance_A", ⟨⟨1, 2, 3⟩, 0⟩)]
      [("A", ⟨9, 9, 9⟩)] "A" 30 ("balance_A", ⟨⟨1, 2, 3⟩, 0⟩) ⟨9, 9, 9⟩ rfl
      (by decide) rfl⟩

/-- A row of the `reminders` table (`cogs/reminders.py` `setup_tables`);
`last_triggered` is write-only in the source and not modelled. -/
structure Reminder where
  id : Nat
  channel_id : Nat
  message : String
  end_time : Nat
  repeat_interval : Option String
  is_active : Bool
deriving DecidableEq, Repr

/-- The reminders store plus the observable side effect: the ids of the
reminder messages actually delivered (`channel.send`), in order. -/
structure RemState where
  reminders : List Reminder
  sent : List Nat
deriving DecidableEq, Repr

/-- Interval arithmetic of `Reminders.trigger_reminder`
(`cogs/reminders.py:186-196`): a `12h`/`3d`/`1w` suffix adds hours/days/weeks
(in seconds here) to the *stored* `end_time`; any other suffix adds nothing,
matching the `if/elif` chain falling through.  (`int(interval[:-1])` on a
non-numeric prefix would raise, but the command layer only stores validated
`h`/`d`/`w` intervals; `.getD 0` covers that unreachable corner.) -/
def parseRepeatSeconds (interval : String) : Nat :=
  if interval.endsWith "h" then ((interval.dropRight 1).toNat?.getD 0) * 3600
  else if interval.endsWith "d" then ((interval.dropRight 1).toNat?.getD 0) * 86400
  else if interval.endsWith "w" then ((interval.dropRight 1).toNat?.getD 0) * 604800
  else 0

/-- The database update at the end of `trigger_reminder`
(`cogs/reminders.py:186-212`): a repeating reminder gets
`end_time := stored end_time + interval` (computed from the row snapshot, not
from the current time); a one-shot reminder gets `is_active := FALSE`.  Both
`UPDATE ... WHERE id = ?` by primary key. -/
def reminder_db_update (st : RemState) (r : Reminder) : RemState :=
  match r.repeat_interval with
  | some interval =>
      { st with reminders := st.reminders.map (fun x =>
          if x.id = r.id then
            { x with end_time := r.end_time + parseRepeatSeconds interval }
          else x) }
  | none =>
      { st with reminders := st.reminders.map (fun x =>
          if x.id = r.id then { x with is_active := false } else x) }

/-- `Reminders.trigger_reminder` (`cogs/reminders.py:152-212`): a missing
channel returns early with no change; otherwise `channel.send` runs —
`sendOk` models whether it raises — and only on success does the database
update happen.  `none` models the exception propagating out of
`trigger_reminder`, which has no handler. -/
def trigger_reminder (channelOk sendOk : Nat → Bool) (st : RemState)
    (r : Reminder) : Option RemState :=
  if channelOk r.channel_id then
    if sendOk r.id then
      some (reminder_db_update { st with sent := st.sent ++ [r.id] } r)
    else none
  else some st

/-- The `for reminder in due_reminders` loop of `Reminders.check_reminders`
(`cogs/reminders.py:144-145`): no per-row handler, so the first exception
aborts the remainder of the loop (second component `true`), keeping the
effects of the rows already processed. -/
def run_due (channelOk sendOk : Nat → Bool) :
    RemState → List Reminder → RemState × Bool
  | st, [] => (st, false)
  | st, r :: rest =>
      match trigger_reminder channelOk sendOk st r with
      | some st1 => run_due channelOk sendOk st1 rest
      | none => (st, true)

/-- `Reminders.check_reminders` (`cogs/reminders.py:132-145`): selects the
active rows with `end_time <= now` and triggers each in order. -/
def check_reminders (channelOk sendOk : Nat → Bool) (now : Nat)
    (st : RemState) : RemState × Bool :=
  run_due channelOk sendOk st
    (st.reminders.filter (fun r => r.is_active && decide (r.end_time ≤ now)))

/-- Repeated poll passes of the `tasks.loop` at the given times. -/
def poll_reminders (channelOk sendOk : Nat → Bool) (ts : List Nat)
    (st : RemState) : RemState :=
  ts.foldl (fun s t => (check_reminders channelOk sendOk t s).1) st

/-- A row of the `giveaways` table (`cogs/giveaway.py` `setup_tables`);
entry counters and requirement fields do not affect the firing discipline
and are not modelled. -/
structure GiveawayRow where
  id : Nat
  channel_id : Nat
  prize : String
  winners : Nat
  end_time : Nat
  ended : Bool
deriving DecidableEq, Repr

/-- The giveaways store plus the observable side effect: the ids of the
giveaways whose winner announcement was actually delivered, in order. -/
structure GwState where
  giveaways : List GiveawayRow
  announced : List Nat
deriving DecidableEq, Repr

/-- `Giveaway.end_giveaway` (`cogs/giveaway.py:162-235`): re-reads the row by
id and returns if absent or already ended; marks `ended = TRUE` and *commits
before* the announcement.  The announcement block then runs when
`self.bot.get_channel` finds the channel (`channelOk`); `announceOk` models
whether `channel.fetch_message` and `message.reply` complete without a
Discord error (`NotFound`/`Forbidden`/`HTTPException`) — those are caught by
the method's own handler and only suppress the announcement.  After a
successful reply the method evaluates `message.embeds[0]`
(`cogs/giveaway.py:214`); on a message with no embeds (e.g. suppressed) this
raises `IndexError`, which neither `except` clause of the method catches: the
second component `true` models that escaping exception (the reply was already
delivered and the `ended` mark already committed).  Winner selection
(`random.sample` over the entries) only shapes the announcement text and is
not modelled. -/
def end_giveaway (channelOk announceOk embedsOk : Nat → Bool) (st : GwState)
    (giveaway_id : Nat) : GwState × Bool :=
  match st.giveaways.find? (fun g => g.id == giveaway_id) with
  | none => (st, false)
  | some g =>
      if g.ended then (st, false)
      else
        let st1 : GwState :=
          { st with giveaways := st.giveaways.map (fun x =>
              if x.id = giveaway_id then { x with ended := true } else x) }
        if channelOk g.channel_id && announceOk g.id then
          ({ st1 with announced := st1.announced ++ [g.id] }, !embedsOk g.id)
        else (st1, false)

/-- The `for giveaway in ended_giveaways` loop of `Giveaway.check_giveaways`
(`cogs/giveaway.py:148-149`): the surrounding handler catches only
`sqlite3.Error`, so an `IndexError` escaping `end_giveaway` aborts the
remaining due rows (second component `true`), keeping the effects of the
rows already processed. -/
def gw_run_due (channelOk announceOk embedsOk : Nat → Bool) :
    GwState → List GiveawayRow → GwState × Bool
  | st, [] => (st, false)
  | st, g :: rest =>
      let r := end_giveaway channelOk announceOk embedsOk st g.id
      if r.2 then (r.1, true)
      else gw_run_due channelOk announceOk embedsOk r.1 rest

/-- `Giveaway.check_giveaways` (`cogs/giveaway.py:132-155`): selects the
unended rows with `end_time <= now` and ends each in order. -/
def check_giveaways (channelOk announceOk embedsOk : Nat → Bool) (now : Nat)
    (st : GwState) : GwState × Bool :=
  gw_run_due channelOk announceOk embedsOk st
    (st.giveaways.filter (fun g => !g.ended && decide (g.end_time ≤ now)))

/-- Repeated poll passes of the giveaway `tasks.loop` at the given times; an
exception escaping one pass stops the `tasks.loop`, so after an abort no
later pass runs (the abort flag is sticky). -/
def poll_giveaways (channelOk announceOk embedsOk : Nat → Bool) (ts : List Nat)
    (st : GwState) : GwState × Bool :=
  ts.foldl (fun s t => if s.2 then s
    else check_giveaways channelOk announceOk embedsOk t s.1) (st, false)

theorem find?_map_pred_inv {α : Type} (l : List α) (f : α → α) (p : α → Bool)
    (hf : ∀ x, p (f x) = p x) :
    (l.map f).find? p = (l.find? p).map f := by
  induction l with
  | nil => rfl
  | cons x rest ih =>
    cases hx : p x with
    | true =>
      rw [List.map_cons, List.find?_cons_of_pos _ (by rw [hf, hx]),
        List.find?_cons_of_pos _ hx]
      rfl
    | false =>
      rw [List.map_cons, List.find?_cons_of_neg _ (by rw [hf, hx]; simp),
        List.find?_cons_of_neg _ (by rw [hx]; simp)]
      exact ih

theorem find?_map_eq_of_fix {α : Type} (l : List α) (f : α → α) (p : α → Bool)
    (hf : ∀ x, p (f x) = p x) (hfix : ∀ x, p x = true → f x = x) :
    (l.map f).find? p = l.find? p := by
  rw [find?_map_pred_inv l f p hf]
  cases hl : l.find? p with
  | none => rfl
  | some v => simp [hfix v (List.find?_some hl)]

/-- `SELECT * FROM reminders WHERE id = ?` — lookup by primary key. -/
def rowById (st : RemState) (i : Nat) : Option Reminder :=
  st.reminders.find? (fun r => r.id == i)

/-- The row value written by `trigger_reminder`'s database update for the
row snapshot `r` itself. -/
def updRow (r : Reminder) : Reminder :=
  match r.repeat_interval with
  | some interval => { r with end_time := r.end_time + parseRepeatSeconds interval }
  | none => { r with is_active := false }

theorem reminder_db_update_sent (st : RemState) (r : Reminder) :
    (reminder_db_update st r).sent = st.sent := by
  unfold reminder_db_update
  cases r.repeat_interval <;> rfl

theorem reminder_db_update_ids (st : RemState) (r : Reminder) :
    (reminder_db_update st r).reminders.map (fun x => x.id) =
      st.reminders.map (fun x => x.id) := by
  unfold reminder_db_update
  cases r.repeat_interval with
  | none =>
    dsimp only
    rw [List.map_map]
    apply List.map_congr_left
    intro x _
    by_cases h : x.id = r.id <;> simp [h]
  | some interval =>
    dsimp only
    rw [List.map_map]
    apply List.map_congr_left
    intro x _
    by_cases h : x.id = r.id <;> simp [h]

theorem rowById_db_update_other (st : RemState) (r : Reminder) (i : Nat)
    (hne : i ≠ r.id) :
    rowById (reminder_db_update st r) i = rowById st i := by
  unfold rowById reminder_db_update
  cases r.repeat_interval with
  | none =>
    dsimp only
    apply find?_map_eq_of_fix
    · intro x
      by_cases h : x.id = r.id <;> simp [h]
    · intro x hx
      have hxi : x.id = i := by simpa using hx
      rw [if_neg (by rw [hxi]; exact hne)]
  | some interval =>
    dsimp only
    apply find?_map_eq_of_fix
    · intro x
      by_cases h : x.id = r.id <;> simp [h]
    · intro x hx
      have hxi : x.id = i := by simpa using hx
      rw [if_neg (by rw [hxi]; exact hne)]

theorem rowById_db_update_self (st : RemState) (r : Reminder)
    (hv : rowById st r.id = some r) :
    rowById (reminder_db_update st r) r.id = some (updRow r) := by
  unfold rowById reminder_db_update updRow
  unfold rowById at hv
  cases hri : r.repeat_interval with
  | none =>
    dsimp only
    rw [find?_map_pred_inv _ _ _ (fun x => by by_cases h : x.id = r.id <;> simp [h]),
      hv]
    simp [hri]
  | some interval =>
    dsimp only
    rw [find?_map_pred_inv _ _ _ (fun x => by by_cases h : x.id = r.id <;> simp [h]),
      hv]
    simp [hri]

theorem trigger_reminder_ok (channelOk sendOk : Nat → Bool) (st : RemState)
    (r : Reminder) (hc : channelOk r.channel_id = true)
    (hs : sendOk r.id = true) :
    trigger_reminder channelOk sendOk st r =
      some (reminder_db_update { st with sent := st.sent ++ [r.id] } r) := by
  unfold trigger_reminder
  rw [hc, hs]
  rfl

theorem run_due_cons (channelOk sendOk : Nat → Bool) (st : RemState)
    (r : Reminder) (rest : List Reminder) :
    run_due channelOk sendOk st (r :: rest) =
      match trigger_reminder channelOk sendOk st r with
      | some st1 => run_due channelOk sendOk st1 rest
      | none => (st, true) := rfl

theorem run_due_no_touch (channelOk sendOk : Nat → Bool)
    (hc : ∀ c, channelOk c = true) (hs : ∀ j, sendOk j = true) (i : Nat) :
    ∀ (due : List Reminder) (st : RemState), (∀ x ∈ due, x.id ≠ i) →
      (run_due channelOk sendOk st due).2 = false ∧
      (run_due channelOk sendOk st due).1.sent.count i = st.sent.count i ∧
      rowById (run_due channelOk sendOk st due).1 i = rowById st i ∧
      (run_due channelOk sendOk st due).1.reminders.map (fun x => x.id) =
        st.reminders.map (fun x => x.id) := by
  intro due
  induction due with
  | nil => exact fun st _ => ⟨rfl, rfl, rfl, rfl⟩
  | cons r rest ih =>
    intro st h
    rw [run_due_cons,
      trigger_reminder_ok channelOk sendOk st r (hc r.channel_id) (hs r.id)]
    have hne : r.id ≠ i := h r (by simp)
    obtain ⟨ha, hb, hrow, hids⟩ :=
      ih (reminder_db_update { st with sent := st.sent ++ [r.id] } r)
        (fun x hx => h x (by simp [hx]))
    refine ⟨ha, ?_, ?_, ?_⟩
    · rw [hb, reminder_db_update_sent]
      simp [List.count_append, List.count_singleton, hne]
    · rw [hrow, rowById_db_update_other _ _ _ (Ne.symm hne)]
      rfl
    · rw [hids, reminder_db_update_ids]

theorem run_due_append (channelOk sendOk : Nat → Bool) (l1 l2 : List Reminder) :
    ∀ st : RemState, (run_due channelOk sendOk st l1).2 = false →
      run_due channelOk sendOk st (l1 ++ l2) =
        run_due channelOk sendOk (run_due channelOk sendOk st l1).1 l2 := by
  induction l1 with
  | nil => intro st _; rfl
  | cons r rest ih =>
    intro st hok
    rw [List.cons_append, run_due_cons, run_due_cons] at *
    cases htr : trigger_reminder channelOk sendOk st r with
    | some st1 =>
      rw [htr] at hok
      dsimp only at hok ⊢
      exact ih st1 hok
    | none =>
      rw [htr] at hok
      dsimp only at hok
      exact absurd hok (by simp)

theorem run_due_fires_once (channelOk sendOk : Nat → Bool)
    (hc : ∀ c, channelOk c = true) (hs : ∀ j, sendOk j = true)
    (r : Reminder) (l1 l2 : List Reminder)
    (h1 : ∀ x ∈ l1, x.id ≠ r.id) (h2 : ∀ x ∈ l2, x.id ≠ r.id)
    (st : RemState) (hrow : rowById st r.id = some r) :
    (run_due channelOk sendOk st (l1 ++ r :: l2)).2 = false ∧
    (run_due channelOk sendOk st (l1 ++ r :: l2)).1.sent.count r.id =
      st.sent.count r.id + 1 ∧
    rowById (run_due channelOk sendOk st (l1 ++ r :: l2)).1 r.id =
      some (updRow r) ∧
    (run_due channelOk sendOk st (l1 ++ r :: l2)).1.reminders.map (fun x => x.id) =
      st.reminders.map (fun x => x.id) := by
  obtain ⟨ha1, hb1, hrow1, hids1⟩ := run_due_no_touch channelOk sendOk hc hs r.id l1 st h1
  rw [run_due_append channelOk sendOk l1 (r :: l2) st ha1]
  set s1 := (run_due channelOk sendOk st l1).1 with hs1
  rw [run_due_cons,
    trigger_reminder_ok channelOk sendOk s1 r (hc r.channel_id) (hs r.id)]
  set s2 := reminder_db_update { s1 with sent := s1.sent ++ [r.id] } r with hs2
  have hrow2 : rowById s2 r.id = some (updRow r) := by
    rw [hs2]
    apply rowById_db_update_self
    rw [← hrow1] at hrow
    exact hrow
  have hcount2 : s2.sent.count r.id = st.sent.count r.id + 1 := by
    rw [hs2, reminder_db_update_sent]
    simp [List.count_append, List.count_singleton_self, hb1]
  have hids2 : s2.reminders.map (fun x => x.id) = st.reminders.map (fun x => x.id) := by
    rw [hs2, reminder_db_update_ids]
    exact hids1
  obtain ⟨ha3, hb3, hrow3, hids3⟩ := run_due_no_touch channelOk sendOk hc hs r.id l2 s2 h2
  exact ⟨ha3, by rw [hb3, hcount2], by rw [hrow3, hrow2], by rw [hids3, hids2]⟩

theorem check_reminders_not_due (channelOk sendOk : Nat → Bool)
    (hc : ∀ c, channelOk c = true) (hs : ∀ j, sendOk j = true)
    (now : Nat) (st : RemState) (i : Nat) (v : Reminder)
    (hnodup : (st.reminders.map (fun x => x.id)).Nodup)
    (hrow : rowById st i = some v)
    (hnd : (v.is_active && decide (v.end_time ≤ now)) = false) :
    (check_reminders channelOk sendOk now st).2 = false ∧
    (check_reminders channelOk sendOk now st).1.sent.count i = st.sent.count i ∧
    rowById (check_reminders channelOk sendOk now st).1 i = some v ∧
    (check_reminders channelOk sendOk now st).1.reminders.map (fun x => x.id) =
      st.reminders.map (fun x => x.id) := by
  have hvid : v.id = i := by simpa using List.find?_some hrow
  have hvmem : v ∈ st.reminders := List.mem_of_find?_eq_some hrow
  have hdiff : ∀ x ∈ st.reminders.filter
      (fun r => r.is_active && decide (r.end_time ≤ now)), x.id ≠ i := by
    intro x hx hxi
    have hx' := List.mem_filter.mp hx
    have hxv : x = v :=
      List.inj_on_of_nodup_map hnodup hx'.1 hvmem (by rw [hxi, hvid])
    have hpx := hx'.2
    rw [hxv, hnd] at hpx
    exact absurd hpx (by simp)
  obtain ⟨ha, hb, hrow', hids⟩ := run_due_no_touch channelOk sendOk hc hs i _ st hdiff
  exact ⟨ha, hb, hrow'.trans hrow, hids⟩

theorem check_reminders_due (channelOk sendOk : Nat → Bool)
    (hc : ∀ c, channelOk c = true) (hs : ∀ j, sendOk j = true)
    (now : Nat) (st : RemState) (r : Reminder)
    (hnodup : (st.reminders.map (fun x => x.id)).Nodup)
    (hrow : rowById st r.id = some r)
    (hact : r.is_active = true) (hdue : r.end_time ≤ now) :
    (check_reminders channelOk sendOk now st).2 = false ∧
    (check_reminders channelOk sendOk now st).1.sent.count r.id =
      st.sent.count r.id + 1 ∧
    rowById (check_reminders channelOk sendOk now st).1 r.id = some (updRow r) ∧
    (check_reminders channelOk sendOk now st).1.reminders.map (fun x => x.id) =
      st.reminders.map (fun x => x.id) := by
  have hmem : r ∈ st.reminders := List.mem_of_find?_eq_some hrow
  have hpred : (r.is_active && decide (r.end_time ≤ now)) = true := by
    simp [hact, hdue]
  have hdue_mem : r ∈ st.reminders.filter
      (fun x => x.is_active && decide (x.end_time ≤ now)) :=
    List.mem_filter.mpr ⟨hmem, hpred⟩
  obtain ⟨l1, l2, hdecomp⟩ := List.append_of_mem hdue_mem
  have hdupdue : ((st.reminders.filter
      (fun x => x.is_active && decide (x.end_time ≤ now))).map (fun x => x.id)).Nodup :=
    List.Nodup.sublist (List.Sublist.map _ (List.filter_sublist _)) hnodup
  rw [hdecomp] at hdupdue
  rw [List.map_append, List.map_cons, List.nodup_append] at hdupdue
  obtain ⟨-, hcons, hdisj⟩ := hdupdue
  have h2 : ∀ x ∈ l2, x.id ≠ r.id := by
    intro x hx heq
    exact (List.nodup_cons.mp hcons).1 (List.mem_map.mpr ⟨x, hx, heq⟩)
  have h1 : ∀ x ∈ l1, x.id ≠ r.id := by
    intro x hx heq
    exact hdisj (List.mem_map.mpr ⟨x, hx, rfl⟩) (by rw [heq]; exact List.mem_cons_self _ _)
  have hfire := run_due_fires_once channelOk sendOk hc hs r l1 l2 h1 h2 st hrow
  have hch : check_reminders channelOk sendOk now st =
      run_due channelOk sendOk st (l1 ++ r :: l2) := by
    unfold check_reminders
    rw [hdecomp]
  rw [hch]
  exact hfire

theorem poll_reminders_cons (channelOk sendOk : Nat → Bool) (t : Nat)
    (ts : List Nat) (st : RemState) :
    poll_reminders channelOk sendOk (t :: ts) st =
      poll_reminders channelOk sendOk ts (check_reminders channelOk sendOk t st).1 := rfl

theorem poll_reminders_inactive (channelOk sendOk : Nat → Bool)
    (hc : ∀ c, channelOk c = true) (hs : ∀ j, sendOk j = true)
    (i : Nat) (v : Reminder) (hv : v.is_active = false) :
    ∀ (ts : List Nat) (st : RemState),
      (st.reminders.map (fun x => x.id)).Nodup → rowById st i = some v →
      (poll_reminders channelOk sendOk ts st).sent.count i = st.sent.count i ∧
      rowById (poll_reminders channelOk sendOk ts st) i = some v := by
  intro ts
  induction ts with
  | nil => exact fun st _ hrow => ⟨rfl, hrow⟩
  | cons t ts' ih =>
    intro st hnodup hrow
    obtain ⟨-, hb, hrow1, hids⟩ :=
      check_reminders_not_due channelOk sendOk hc hs t st i v hnodup hrow
        (by simp [hv])
    have hnodup1 : ((check_reminders channelOk sendOk t st).1.reminders.map
        (fun x => x.id)).Nodup := by rw [hids]; exact hnodup
    obtain ⟨hb2, hrow2⟩ := ih (check_reminders channelOk sendOk t st).1 hnodup1 hrow1
    rw [poll_reminders_cons]
    exact ⟨hb2.trans hb, hrow2⟩

theorem reminders_one_shot_aux (channelOk sendOk : Nat → Bool)
    (hc : ∀ c, channelOk c = true) (hs : ∀ j, sendOk j = true)
    (r : Reminder) (hact : r.is_active = true) (hone : r.repeat_interval = none) :
    ∀ (ts : List Nat) (st : RemState),
      (st.reminders.map (fun x => x.id)).Nodup → rowById st r.id = some r →
      ((poll_reminders channelOk sendOk ts st).sent.count r.id =
        st.sent.count r.id +
          (if ts.any (fun t => decide (r.end_time ≤ t)) then 1 else 0)) ∧
      (ts.any (fun t => decide (r.end_time ≤ t)) = true →
        rowById (poll_reminders channelOk sendOk ts st) r.id =
          some { r with is_active := false }) := by
  intro ts
  induction ts with
  | nil =>
    intro st _ hrow
    refine ⟨by simp [poll_reminders], ?_⟩
    intro h
    exact absurd h (by simp)
  | cons t ts' ih =>
    intro st hnodup hrow
    by_cases hdue : r.end_time ≤ t
    · obtain ⟨-, hb, hrow1, hids⟩ :=
        check_reminders_due channelOk sendOk hc hs t st r hnodup hrow hact hdue
      have hupd : updRow r = { r with is_active := false } := by
        unfold updRow
        rw [hone]
      have hnodup1 : ((check_reminders channelOk sendOk t st).1.reminders.map
          (fun x => x.id)).Nodup := by rw [hids]; exact hnodup
      have hrow1' : rowById (check_reminders channelOk sendOk t st).1 r.id =
          some { r with is_active := false } := by rw [hrow1, hupd]
      obtain ⟨hb2, hrow2⟩ :=
        poll_reminders_inactive channelOk sendOk hc hs r.id
          { r with is_active := false } rfl ts'
          (check_reminders channelOk sendOk t st).1 hnodup1 hrow1'
      rw [poll_reminders_cons]
      have hany : (t :: ts').any (fun t => decide (r.end_time ≤ t)) = true := by
        simp [hdue]
      refine ⟨?_, fun _ => hrow2⟩
      rw [hb2, hb, hany]
      rfl
    · obtain ⟨-, hb, hrow1, hids⟩ :=
        check_reminders_not_due channelOk sendOk hc hs t st r.id r hnodup hrow
          (by simp [hdue])
      have hnodup1 : ((check_reminders channelOk sendOk t st).1.reminders.map
          (fun x => x.id)).Nodup := by rw [hids]; exact hnodup
      obtain ⟨hb2, hrow2⟩ :=
        ih (check_reminders channelOk sendOk t st).1 hnodup1 hrow1
      rw [poll_reminders_cons]
      have hany : (t :: ts').any (fun x => decide (r.end_time ≤ x)) =
          ts'.any (fun x => decide (r.end_time ≤ x)) := by
        simp [hdue]
      refine ⟨?_, ?_⟩
      · rw [hb2, hb, hany]
      · intro h
        exact hrow2 (by rw [← hany]; exact h)

/-- C8: when a repeating reminder fires, the next target time written back is
the *stored* `end_time` plus the parsed repeat interval — the universally
quantified poll time `now` does not occur on the right-hand side, so the
result is the same no matter how late the poll pass ran. -/
theorem repeating_reminder_advances_from_stored_time :
    ∀ (channelOk sendOk : Nat → Bool) (now : Nat) (st : RemState)
      (r : Reminder) (interval : String),
      (∀ c, channelOk c = true) → (∀ j, sendOk j = true) →
      (st.reminders.map (fun x => x.id)).Nodup →
      rowById st r.id = some r →
      r.is_active = true → r.repeat_interval = some interval →
      r.end_time ≤ now →
      rowById (check_reminders channelOk sendOk now st).1 r.id =
        some { r with end_time := r.end_time + parseRepeatSeconds interval } := by
  intro channelOk sendOk now st r interval hc hs hnodup hrow hact hint hdue
  have h := (check_reminders_due channelOk sendOk hc hs now st r hnodup hrow
    hact hdue).2.2.1
  rw [h]
  unfold updRow
  rw [hint]

/-- Witness for C8: a reminder with stored `end_time` 100 and interval "1h",
polled very late at `now = 99999`, is rescheduled to 100 + 3600 = 3700. -/
theorem repeating_reminder_advances_from_stored_time_witness :
    rowById (check_reminders (fun _ => true) (fun _ => true) 99999
      ⟨[⟨1, 5, "m", 100, some "1h", true⟩], []⟩).1 1 =
      some ⟨1, 5, "m", 100 + parseRepeatSeconds "1h", some "1h", true⟩ :=
  repeating_reminder_advances_from_stored_time (fun _ => true) (fun _ => true)
    99999 ⟨[⟨1, 5, "m", 100, some "1h", true⟩], []⟩ ⟨1, 5, "m", 100, some "1h", true⟩
    "1h" (fun _ => rfl) (fun _ => rfl) (by simp) rfl rfl rfl (by simp)

/-- `SELECT * FROM giveaways WHERE id = ?` — lookup by primary key. -/
def gwRowById (st : GwState) (i : Nat) : Option GiveawayRow :=
  st.giveaways.find? (fun g => g.id == i)

theorem map_id_mark (l : List GiveawayRow) (gid : Nat) :
    (l.map (fun x => if x.id = gid then { x with ended := true } else x)).map
      (fun x => x.id) = l.map (fun x => x.id) := by
  rw [List.map_map]
  apply List.map_congr_left
  intro x _
  by_cases h : x.id = gid <;> simp [h]

theorem end_giveaway_ids (channelOk announceOk embedsOk : Nat → Bool)
    (st : GwState) (gid : Nat) :
    (end_giveaway channelOk announceOk embedsOk st gid).1.giveaways.map
      (fun x => x.id) = st.giveaways.map (fun x => x.id) := by
  unfold end_giveaway
  cases hf : st.giveaways.find? (fun g => g.id == gid) with
  | none => rfl
  | some g =>
    cases he : g.ended with
    | true => simp [he]
    | false =>
      dsimp only
      rw [if_neg (by simp [he])]
      by_cases hok : (channelOk g.channel_id && announceOk g.id) = true
      · rw [if_pos hok]
        exact map_id_mark st.giveaways gid
      · rw [if_neg hok]
        exact map_id_mark st.giveaways gid

theorem gwRowById_end_other (channelOk announceOk embedsOk : Nat → Bool)
    (st : GwState) (gid i : Nat) (hne : i ≠ gid) :
    gwRowById (end_giveaway channelOk announceOk embedsOk st gid).1 i =
      gwRowById st i := by
  unfold gwRowById end_giveaway
  cases hf : st.giveaways.find? (fun g => g.id == gid) with
  | none => rfl
  | some g =>
    cases he : g.ended with
    | true => simp [he]
    | false =>
      dsimp only
      rw [if_neg (by simp [he])]
      have hmark : (st.giveaways.map (fun x =>
          if x.id = gid then { x with ended := true } else x)).find?
            (fun g => g.id == i) = st.giveaways.find? (fun g => g.id == i) := by
        apply find?_map_eq_of_fix
        · intro x
          by_cases h : x.id = gid <;> simp [h]
        · intro x hx
          have hxi : x.id = i := by simpa using hx
          rw [if_neg (by rw [hxi]; exact hne)]
      by_cases hok : (channelOk g.channel_id && announceOk g.id) = true
      · rw [if_pos hok]
        exact hmark
      · rw [if_neg hok]
        exact hmark

theorem end_giveaway_count_other (channelOk announceOk embedsOk : Nat → Bool)
    (st : GwState) (gid i : Nat) (hne : i ≠ gid) :
    (end_giveaway channelOk announceOk embedsOk st gid).1.announced.count i =
      st.announced.count i := by
  unfold end_giveaway
  cases hf : st.giveaways.find? (fun g => g.id == gid) with
  | none => rfl
  | some g =>
    have hgid : g.id = gid := by simpa using List.find?_some hf
    cases he : g.ended with
    | true => simp [he]
    | false =>
      dsimp only
      rw [if_neg (by simp [he])]
      by_cases hok : (channelOk g.channel_id && announceOk g.id) = true
      · rw [if_pos hok]
        simp [List.count_append, List.count_singleton, hgid, hne.symm]
      · rw [if_neg hok]

theorem end_giveaway_flag_ok (channelOk announceOk embedsOk : Nat → Bool)
    (st : GwState) (gid : Nat) (hem : embedsOk gid = true) :
    (end_giveaway channelOk announceOk embedsOk st gid).2 = false := by
  unfold end_giveaway
  cases hf : st.giveaways.find? (fun g => g.id == gid) with
  | none => rfl
  | some g =>
    have hgid : g.id = gid := by simpa using List.find?_some hf
    cases he : g.ended with
    | true => simp [he]
    | false =>
      dsimp only
      rw [if_neg (by simp [he])]
      by_cases hok : (channelOk g.channel_id && announceOk g.id) = true
      · rw [if_pos hok]
        show (!embedsOk g.id) = false
        rw [hgid, hem]
        rfl
      · rw [if_neg hok]

theorem end_giveaway_self_unended (channelOk announceOk embedsOk : Nat → Bool)
    (st : GwState) (gid : Nat) (v : GiveawayRow)
    (hrow : gwRowById st gid = some v) (he : v.ended = false) :
    gwRowById (end_giveaway channelOk announceOk embedsOk st gid).1 gid =
      some { v with ended := true } ∧
    (end_giveaway channelOk announceOk embedsOk st gid).1.announced.count gid =
      st.announced.count gid +
        (if channelOk v.channel_id && announceOk v.id then 1 else 0) ∧
    (channelOk v.channel_id = true → announceOk v.id = true →
      embedsOk v.id = false →
      (end_giveaway channelOk announceOk embedsOk st gid).2 = true) := by
  have hvid : v.id = gid := by simpa using List.find?_some hrow
  unfold gwRowById at hrow ⊢
  unfold end_giveaway
  rw [hrow]
  dsimp only
  rw [if_neg (by simp [he])]
  have hmark : (st.giveaways.map (fun x =>
      if x.id = gid then { x with ended := true } else x)).find?
        (fun g => g.id == gid) = some { v with ended := true } := by
    rw [find?_map_pred_inv _ _ _ (fun x => by by_cases h : x.id = gid <;> simp [h]),
      hrow]
    simp [hvid]
  by_cases hok : (channelOk v.channel_id && announceOk v.id) = true
  · rw [if_pos hok]
    refine ⟨hmark, ?_, ?_⟩
    · rw [if_pos hok]
      simp [List.count_append, List.count_singleton_self, hvid]
    · intro _ _ hem
      show (!embedsOk v.id) = true
      rw [hem]
      rfl
  · rw [if_neg hok]
    refine ⟨hmark, ?_, ?_⟩
    · rw [if_neg hok]
      simp
    · intro hc' ha' _
      exact absurd (by rw [hc', ha']; rfl) hok

theorem end_giveaway_self_ended (channelOk announceOk embedsOk : Nat → Bool)
    (st : GwState) (gid : Nat) (v : GiveawayRow)
    (hrow : gwRowById st gid = some v) (he : v.ended = true) :
    end_giveaway channelOk announceOk embedsOk st gid = (st, false) := by
  unfold gwRowById at hrow
  unfold end_giveaway
  rw [hrow]
  dsimp only
  rw [if_pos (by simp [he])]

theorem gw_run_due_cons (channelOk announceOk embedsOk : Nat → Bool)
    (st : GwState) (g : GiveawayRow) (rest : List GiveawayRow) :
    gw_run_due channelOk announceOk embedsOk st (g :: rest) =
      if (end_giveaway channelOk announceOk embedsOk st g.id).2 then
        ((end_giveaway channelOk announceOk embedsOk st g.id).1, true)
      else gw_run_due channelOk announceOk embedsOk
        (end_giveaway channelOk announceOk embedsOk st g.id).1 rest := rfl

theorem gw_run_due_cons_ok (channelOk announceOk embedsOk : Nat → Bool)
    (st : GwState) (g : GiveawayRow) (rest : List GiveawayRow)
    (hflag : (end_giveaway channelOk announceOk embedsOk st g.id).2 = false) :
    gw_run_due channelOk announceOk embedsOk st (g :: rest) =
      gw_run_due channelOk announceOk embedsOk
        (end_giveaway channelOk announceOk embedsOk st g.id).1 rest := by
  rw [gw_run_due_cons, hflag]
  simp

theorem gw_run_due_cons_abort (channelOk announceOk embedsOk : Nat → Bool)
    (st : GwState) (g : GiveawayRow) (rest : List GiveawayRow)
    (hflag : (end_giveaway channelOk announceOk embedsOk st g.id).2 = true) :
    gw_run_due channelOk announceOk embedsOk st (g :: rest) =
      ((end_giveaway channelOk announceOk embedsOk st g.id).1, true) := by
  rw [gw_run_due_cons, hflag]
  simp

theorem gw_run_due_no_touch (channelOk announceOk embedsOk : Nat → Bool)
    (i : Nat) :
    ∀ (due : List GiveawayRow) (st : GwState),
      (∀ x ∈ due, x.id ≠ i) → (∀ x ∈ due, embedsOk x.id = true) →
      (gw_run_due channelOk announceOk embedsOk st due).2 = false ∧
      (gw_run_due channelOk announceOk embedsOk st due).1.announced.count i =
        st.announced.count i ∧
      gwRowById (gw_run_due channelOk announceOk embedsOk st due).1 i =
        gwRowById st i ∧
      (gw_run_due channelOk announceOk embedsOk st due).1.giveaways.map
        (fun x => x.id) = st.giveaways.map (fun x => x.id) := by
  intro due
  induction due with
  | nil => exact fun st _ _ => ⟨rfl, rfl, rfl, rfl⟩
  | cons g rest ih =>
    intro st h hem
    have hne : i ≠ g.id := Ne.symm (h g (by simp))
    have hflag := end_giveaway_flag_ok channelOk announceOk embedsOk st g.id
      (hem g (by simp))
    rw [gw_run_due_cons_ok channelOk announceOk embedsOk st g rest hflag]
    obtain ⟨ha, hb, hrw, hcids⟩ :=
      ih (end_giveaway channelOk announceOk embedsOk st g.id).1
        (fun x hx => h x (by simp [hx])) (fun x hx => hem x (by simp [hx]))
    refine ⟨ha, ?_, ?_, ?_⟩
    · rw [hb, end_giveaway_count_other channelOk announceOk embedsOk st g.id i hne]
    · rw [hrw, gwRowById_end_other channelOk announceOk embedsOk st g.id i hne]
    · rw [hcids, end_giveaway_ids]

theorem gw_run_due_append (channelOk announceOk embedsOk : Nat → Bool)
    (l1 l2 : List GiveawayRow) :
    ∀ st : GwState, (gw_run_due channelOk announceOk embedsOk st l1).2 = false →
      gw_run_due channelOk announceOk embedsOk st (l1 ++ l2) =
        gw_run_due channelOk announceOk embedsOk
          (gw_run_due channelOk announceOk embedsOk st l1).1 l2 := by
  induction l1 with
  | nil => intro st _; rfl
  | cons g rest ih =>
    intro st hok
    cases hfl : (end_giveaway channelOk announceOk embedsOk st g.id).2 with
    | false =>
      rw [gw_run_due_cons_ok channelOk announceOk embedsOk st g rest hfl] at hok
      rw [List.cons_append,
        gw_run_due_cons_ok channelOk announceOk embedsOk st g (rest ++ l2) hfl,
        gw_run_due_cons_ok channelOk announceOk embedsOk st g rest]
      · exact ih _ hok
      · exact hfl
    | true =>
      rw [gw_run_due_cons_abort channelOk announceOk embedsOk st g rest hfl] at hok
      exact absurd hok (by simp)

theorem gw_run_due_fires_once (channelOk announceOk embedsOk : Nat → Bool)
    (g : GiveawayRow) (l1 l2 : List GiveawayRow)
    (h1 : ∀ x ∈ l1, x.id ≠ g.id) (h2 : ∀ x ∈ l2, x.id ≠ g.id)
    (h1e : ∀ x ∈ l1, embedsOk x.id = true)
    (h2e : ∀ x ∈ l2, embedsOk x.id = true) (hge : embedsOk g.id = true)
    (st : GwState) (hrow : gwRowById st g.id = some g)
    (hend : g.ended = false) :
    (gw_run_due channelOk announceOk embedsOk st (l1 ++ g :: l2)).2 = false ∧
    (gw_run_due channelOk announceOk embedsOk st (l1 ++ g :: l2)).1.announced.count g.id =
      st.announced.count g.id +
        (if channelOk g.channel_id && announceOk g.id then 1 else 0) ∧
    gwRowById (gw_run_due channelOk announceOk embedsOk st (l1 ++ g :: l2)).1 g.id =
      some { g with ended := true } ∧
    (gw_run_due channelOk announceOk embedsOk st (l1 ++ g :: l2)).1.giveaways.map
      (fun x => x.id) = st.giveaways.map (fun x => x.id) := by
  obtain ⟨hfl1, ha1, hb1, hcids1⟩ :=
    gw_run_due_no_touch channelOk announceOk embedsOk g.id l1 st h1 h1e
  rw [gw_run_due_append channelOk announceOk embedsOk l1 (g :: l2) st hfl1]
  set s1 := (gw_run_due channelOk announceOk embedsOk st l1).1 with hs1
  have hrow1 : gwRowById s1 g.id = some g := hb1.trans hrow
  have hflg : (end_giveaway channelOk announceOk embedsOk s1 g.id).2 = false :=
    end_giveaway_flag_ok channelOk announceOk embedsOk s1 g.id hge
  rw [gw_run_due_cons_ok channelOk announceOk embedsOk s1 g l2 hflg]
  obtain ⟨hrow2, hcount2, -⟩ :=
    end_giveaway_self_unended channelOk announceOk embedsOk s1 g.id g hrow1 hend
  obtain ⟨hfl3, ha3, hb3, hcids3⟩ :=
    gw_run_due_no_touch channelOk announceOk embedsOk g.id l2
      (end_giveaway channelOk announceOk embedsOk s1 g.id).1 h2 h2e
  refine ⟨hfl3, ?_, ?_, ?_⟩
  · rw [ha3, hcount2, ha1]
  · rw [hb3, hrow2]
  · rw [hcids3, end_giveaway_ids, hcids1]

theorem gw_run_due_abort (channelOk announceOk embedsOk : Nat → Bool)
    (r : GiveawayRow) (hcr : channelOk r.channel_id = true)
    (har : announceOk r.id = true) (her : embedsOk r.id = false) :
    ∀ (l1 l2 : List GiveawayRow) (st : GwState),
      (∀ x ∈ l1, x.id ≠ r.id) → (∀ x ∈ l1, embedsOk x.id = true) →
      gwRowById st r.id = some r → r.ended = false →
      gw_run_due channelOk announceOk embedsOk st (l1 ++ r :: l2) =
        ((end_giveaway channelOk announceOk embedsOk
          (gw_run_due channelOk announceOk embedsOk st l1).1 r.id).1, true) := by
  intro l1 l2 st h1 h1e hrow hend
  obtain ⟨hfl1, -, hb1, -⟩ :=
    gw_run_due_no_touch channelOk announceOk embedsOk r.id l1 st h1 h1e
  rw [gw_run_due_append channelOk announceOk embedsOk l1 (r :: l2) st hfl1]
  set s1 := (gw_run_due channelOk announceOk embedsOk st l1).1 with hs1
  have hrow1 : gwRowById s1 r.id = some r := hb1.trans hrow
  have habort : (end_giveaway channelOk announceOk embedsOk s1 r.id).2 = true :=
    (end_giveaway_self_unended channelOk announceOk embedsOk s1 r.id r hrow1
      hend).2.2 hcr har her
  exact gw_run_due_cons_abort channelOk announceOk embedsOk s1 r l2 habort

theorem check_giveaways_not_due (channelOk announceOk embedsOk : Nat → Bool)
    (hem : ∀ j, embedsOk j = true) (now : Nat) (st : GwState) (i : Nat)
    (v : GiveawayRow)
    (hnodup : (st.giveaways.map (fun x => x.id)).Nodup)
    (hrow : gwRowById st i = some v)
    (hnd : (!v.ended && decide (v.end_time ≤ now)) = false) :
    (check_giveaways channelOk announceOk embedsOk now st).2 = false ∧
    (check_giveaways channelOk announceOk embedsOk now st).1.announced.count i =
      st.announced.count i ∧
    gwRowById (check_giveaways channelOk announceOk embedsOk now st).1 i = some v ∧
    (check_giveaways channelOk announceOk embedsOk now st).1.giveaways.map
      (fun x => x.id) = st.giveaways.map (fun x => x.id) := by
  have hvid : v.id = i := by simpa using List.find?_some hrow
  have hvmem : v ∈ st.giveaways := List.mem_of_find?_eq_some hrow
  have hdiff : ∀ x ∈ st.giveaways.filter
      (fun g => !g.ended && decide (g.end_time ≤ now)), x.id ≠ i := by
    intro x hx hxi
    have hx' := List.mem_filter.mp hx
    have hxv : x = v :=
      List.inj_on_of_nodup_map hnodup hx'.1 hvmem (by rw [hxi, hvid])
    have hpx := hx'.2
    rw [hxv, hnd] at hpx
    exact absurd hpx (by simp)
  obtain ⟨hfl, ha, hb, hcids⟩ :=
    gw_run_due_no_touch channelOk announceOk embedsOk i _ st hdiff
      (fun x _ => hem x.id)
  exact ⟨hfl, ha, hb.trans hrow, hcids⟩

theorem check_giveaways_due (channelOk announceOk embedsOk : Nat → Bool)
    (hem : ∀ j, embedsOk j = true) (now : Nat) (st : GwState)
    (g : GiveawayRow)
    (hnodup : (st.giveaways.map (fun x => x.id)).Nodup)
    (hrow : gwRowById st g.id = some g)
    (hend : g.ended = false) (hdue : g.end_time ≤ now) :
    (check_giveaways channelOk announceOk embedsOk now st).2 = false ∧
    (check_giveaways channelOk announceOk embedsOk now st).1.announced.count g.id =
      st.announced.count g.id +
        (if channelOk g.channel_id && announceOk g.id then 1 else 0) ∧
    gwRowById (check_giveaways channelOk announceOk embedsOk now st).1 g.id =
      some { g with ended := true } ∧
    (check_giveaways channelOk announceOk embedsOk now st).1.giveaways.map
      (fun x => x.id) = st.giveaways.map (fun x => x.id) := by
  have hmem : g ∈ st.giveaways := List.mem_of_find?_eq_some hrow
  have hpred : (!g.ended && decide (g.end_time ≤ now)) = true := by
    simp [hend, hdue]
  have hdue_mem : g ∈ st.giveaways.filter
      (fun x => !x.ended && decide (x.end_time ≤ now)) :=
    List.mem_filter.mpr ⟨hmem, hpred⟩
  obtain ⟨l1, l2, hdecomp⟩ := List.append_of_mem hdue_mem
  have hdupdue : ((st.giveaways.filter
      (fun x => !x.ended && decide (x.end_time ≤ now))).map (fun x => x.id)).Nodup :=
    List.Nodup.sublist (List.Sublist.map _ (List.filter_sublist _)) hnodup
  rw [hdecomp] at hdupdue
  rw [List.map_append, List.map_cons, List.nodup_append] at hdupdue
  obtain ⟨-, hcons, hdisj⟩ := hdupdue
  have h2 : ∀ x ∈ l2, x.id ≠ g.id := by
    intro x hx heq
    exact (List.nodup_cons.mp hcons).1 (List.mem_map.mpr ⟨x, hx, heq⟩)
  have h1 : ∀ x ∈ l1, x.id ≠ g.id := by
    intro x hx heq
    exact hdisj (List.mem_map.mpr ⟨x, hx, rfl⟩)
      (by rw [heq]; exact List.mem_cons_self _ _)
  have hch : check_giveaways channelOk announceOk embedsOk now st =
      gw_run_due channelOk announceOk embedsOk st (l1 ++ g :: l2) := by
    unfold check_giveaways
    rw [hdecomp]
  rw [hch]
  exact gw_run_due_fires_once channelOk announceOk embedsOk g l1 l2 h1 h2
    (fun x _ => hem x.id) (fun x _ => hem x.id) (hem g.id) st hrow hend

theorem poll_giveaways_cons_ok (channelOk announceOk embedsOk : Nat → Bool)
    (t : Nat) (ts : List Nat) (st : GwState)
    (hflag : (check_giveaways channelOk announceOk embedsOk t st).2 = false) :
    poll_giveaways channelOk announceOk embedsOk (t :: ts) st =
      poll_giveaways channelOk announceOk embedsOk ts
        (check_giveaways channelOk announceOk embedsOk t st).1 := by
  unfold poll_giveaways
  rw [List.foldl_cons]
  have hstep : (if (st, false).2 then (st, false)
      else check_giveaways channelOk announceOk embedsOk t (st, false).1) =
      ((check_giveaways channelOk announceOk embedsOk t st).1, false) := by
    rw [if_neg (by simp)]
    show check_giveaways channelOk announceOk embedsOk t st =
      ((check_giveaways channelOk announceOk embedsOk t st).1, false)
    rw [← hflag]
  rw [hstep]

theorem poll_giveaways_ended (channelOk announceOk embedsOk : Nat → Bool)
    (hem : ∀ j, embedsOk j = true) (i : Nat) (v : GiveawayRow)
    (hv : v.ended = true) :
    ∀ (ts : List Nat) (st : GwState),
      (st.giveaways.map (fun x => x.id)).Nodup → gwRowById st i = some v →
      (poll_giveaways channelOk announceOk embedsOk ts st).1.announced.count i =
        st.announced.count i ∧
      gwRowById (poll_giveaways channelOk announceOk embedsOk ts st).1 i = some v := by
  intro ts
  induction ts with
  | nil => exact fun st _ hrow => ⟨rfl, hrow⟩
  | cons t ts' ih =>
    intro st hnodup hrow
    obtain ⟨hfl, ha, hb, hcids⟩ :=
      check_giveaways_not_due channelOk announceOk embedsOk hem t st i v hnodup
        hrow (by simp [hv])
    have hnodup1 : ((check_giveaways channelOk announceOk embedsOk t st).1.giveaways.map
        (fun x => x.id)).Nodup := by rw [hcids]; exact hnodup
    obtain ⟨ha2, hb2⟩ :=
      ih (check_giveaways channelOk announceOk embedsOk t st).1 hnodup1 hb
    rw [poll_giveaways_cons_ok channelOk announceOk embedsOk t ts' st hfl]
    exact ⟨ha2.trans ha, hb2⟩

theorem giveaways_one_shot_aux (channelOk announceOk embedsOk : Nat → Bool)
    (hc : ∀ c, channelOk c = true) (ha : ∀ j, announceOk j = true)
    (hem : ∀ j, embedsOk j = true) (g : GiveawayRow) (hend : g.ended = false) :
    ∀ (ts : List Nat) (st : GwState),
      (st.giveaways.map (fun x => x.id)).Nodup → gwRowById st g.id = some g →
      ((poll_giveaways channelOk announceOk embedsOk ts st).1.announced.count g.id =
        st.announced.count g.id +
          (if ts.any (fun t => decide (g.end_time ≤ t)) then 1 else 0)) ∧
      (ts.any (fun t => decide (g.end_time ≤ t)) = true →
        gwRowById (poll_giveaways channelOk announceOk embedsOk ts st).1 g.id =
          some { g with ended := true }) := by
  intro ts
  induction ts with
  | nil =>
    intro st _ hrow
    refine ⟨by simp [poll_giveaways], ?_⟩
    intro h
    exact absurd h (by simp)
  | cons t ts' ih =>
    intro st hnodup hrow
    by_cases hdue : g.end_time ≤ t
    · obtain ⟨hfl, hb, hrow1, hcids⟩ :=
        check_giveaways_due channelOk announceOk embedsOk hem t st g hnodup
          hrow hend hdue
      have hnodup1 : ((check_giveaways channelOk announceOk embedsOk t st).1.giveaways.map
          (fun x => x.id)).Nodup := by rw [hcids]; exact hnodup
      obtain ⟨hb2, hrow2⟩ :=
        poll_giveaways_ended channelOk announceOk embedsOk hem g.id
          { g with ended := true } rfl ts'
          (check_giveaways channelOk announceOk embedsOk t st).1 hnodup1 hrow1
      rw [poll_giveaways_cons_ok channelOk announceOk embedsOk t ts' st hfl]
      have hany : (t :: ts').any (fun x => decide (g.end_time ≤ x)) = true := by
        simp [hdue]
      refine ⟨?_, fun _ => hrow2⟩
      rw [hb2, hb, hany, hc g.channel_id, ha g.id]
      rfl
    · obtain ⟨hfl, hb, hrow1, hcids⟩ :=
        check_giveaways_not_due channelOk announceOk embedsOk hem t st g.id g
          hnodup hrow (by simp [hdue])
      have hnodup1 : ((check_giveaways channelOk announceOk embedsOk t st).1.giveaways.map
          (fun x => x.id)).Nodup := by rw [hcids]; exact hnodup
      obtain ⟨hb2, hrow2⟩ :=
        ih (check_giveaways channelOk announceOk embedsOk t st).1 hnodup1 hrow1
      rw [poll_giveaways_cons_ok channelOk announceOk embedsOk t ts' st hfl]
      have hany : (t :: ts').any (fun x => decide (g.end_time ≤ x)) =
          ts'.any (fun x => decide (g.end_time ≤ x)) := by
        simp [hdue]
      refine ⟨?_, ?_⟩
      · rw [hb2, hb, hany]
      · intro h
        exact hrow2 (by rw [← hany]; exact h)

/-- C7: a one-shot scheduled action fires exactly once across any number of
poll passes once its due time has passed, provided its side effect succeeds
(channel present, delivery succeeds, and — for giveaways — the fetched
message still carries its embed, so `message.embeds[0]` does not raise).
For reminders, the pass that delivers the message also sets
`is_active = FALSE`, so the total number of deliveries over any poll
sequence is exactly 1 when some pass is at or after the due time (0
otherwise), and the row ends up inactive.  For giveaways, the pass that
announces also sets `ended = TRUE` (committed even before announcing) with
the same exactly-once count.  Row ids are `Nodup` because they are primary
keys. -/
theorem one_shot_fires_exactly_once :
    (∀ (channelOk sendOk : Nat → Bool) (ts : List Nat) (st : RemState)
      (r : Reminder),
      (∀ c, channelOk c = true) → (∀ j, sendOk j = true) →
      (st.reminders.map (fun x => x.id)).Nodup →
      rowById st r.id = some r → r.is_active = true → r.repeat_interval = none →
      ((poll_reminders channelOk sendOk ts st).sent.count r.id =
        st.sent.count r.id +
          (if ts.any (fun t => decide (r.end_time ≤ t)) then 1 else 0)) ∧
      (ts.any (fun t => decide (r.end_time ≤ t)) = true →
        rowById (poll_reminders channelOk sendOk ts st) r.id =
          some { r with is_active := false })) ∧
    (∀ (channelOk announceOk embedsOk : Nat → Bool) (ts : List Nat)
      (st : GwState) (g : GiveawayRow),
      (∀ c, channelOk c = true) → (∀ j, announceOk j = true) →
      (∀ j, embedsOk j = true) →
      (st.giveaways.map (fun x => x.id)).Nodup →
      gwRowById st g.id = some g → g.ended = false →
      ((poll_giveaways channelOk announceOk embedsOk ts st).1.announced.count g.id =
        st.announced.count g.id +
          (if ts.any (fun t => decide (g.end_time ≤ t)) then 1 else 0)) ∧
      (ts.any (fun t => decide (g.end_time ≤ t)) = true →
        gwRowById (poll_giveaways channelOk announceOk embedsOk ts st).1 g.id =
          some { g with ended := true })) := by
  constructor
  · intro channelOk sendOk ts st r hc hs hnodup hrow hact hone
    exact reminders_one_shot_aux channelOk sendOk hc hs r hact hone ts st hnodup hrow
  · intro channelOk announceOk embedsOk ts st g hc ha hem hnodup hrow hend
    exact giveaways_one_shot_aux channelOk announceOk embedsOk hc ha hem g hend
      ts st hnodup hrow

/-- Witness for C7: a one-shot reminder due at 50 polled at 10, 60 and 90 is
delivered exactly once and left inactive; a giveaway due at 50 polled at 10
and 60 is announced exactly once and left ended. -/
theorem one_shot_fires_exactly_once_witness :
    (((poll_reminders (fun _ => true) (fun _ => true) [10, 60, 90]
        ⟨[⟨1, 7, "hello", 50, none, true⟩], []⟩).sent.count 1 =
      ([] : List Nat).count 1 +
        (if [10, 60, 90].any (fun t => decide (50 ≤ t)) then 1 else 0)) ∧
    ([10, 60, 90].any (fun t => decide (50 ≤ t)) = true →
      rowById (poll_reminders (fun _ => true) (fun _ => true) [10, 60, 90]
        ⟨[⟨1, 7, "hello", 50, none, true⟩], []⟩) 1 =
        some ⟨1, 7, "hello", 50, none, false⟩)) ∧
    (((poll_giveaways (fun _ => true) (fun _ => true) (fun _ => true) [10, 60]
        ⟨[⟨2, 7, "prize", 1, 50, false⟩], []⟩).1.announced.count 2 =
      ([] : List Nat).count 2 +
        (if [10, 60].any (fun t => decide (50 ≤ t)) then 1 else 0)) ∧
    ([10, 60].any (fun t => decide (50 ≤ t)) = true →
      gwRowById (poll_giveaways (fun _ => true) (fun _ => true) (fun _ => true)
        [10, 60] ⟨[⟨2, 7, "prize", 1, 50, false⟩], []⟩).1 2 =
        some ⟨2, 7, "prize", 1, 50, true⟩)) :=
  ⟨one_shot_fires_exactly_once.1 (fun _ => true) (fun _ => true) [10, 60, 90]
      ⟨[⟨1, 7, "hello", 50, none, true⟩], []⟩ ⟨1, 7, "hello", 50, none, true⟩
      (fun _ => rfl) (fun _ => rfl) (by simp) rfl rfl rfl,
    one_shot_fires_exactly_once.2 (fun _ => true) (fun _ => true) (fun _ => true)
      [10, 60] ⟨[⟨2, 7, "prize", 1, 50, false⟩], []⟩ ⟨2, 7, "prize", 1, 50, false⟩
      (fun _ => rfl) (fun _ => rfl) (fun _ => rfl) (by simp) rfl rfl⟩

theorem run_due_abort (channelOk sendOk : Nat → Bool) (r : Reminder)
    (hcr : channelOk r.channel_id = true) (hsr : sendOk r.id = false) :
    ∀ (l1 l2 : List Reminder) (st : RemState),
      (∀ x ∈ l1, channelOk x.channel_id = true ∧ sendOk x.id = true) →
      run_due channelOk sendOk st (l1 ++ r :: l2) =
        ((run_due channelOk sendOk st l1).1, true) := by
  intro l1
  induction l1 with
  | nil =>
    intro l2 st _
    rw [List.nil_append, run_due_cons]
    unfold trigger_reminder
    rw [hcr, hsr]
    rfl
  | cons x rest ih =>
    intro l2 st hok
    have hx := hok x (by simp)
    rw [List.cons_append, run_due_cons,
      trigger_reminder_ok channelOk sendOk st x hx.1 hx.2]
    dsimp only
    rw [ih l2 _ (fun y hy => hok y (by simp [hy]))]
    rw [run_due_cons, trigger_reminder_ok channelOk sendOk st x hx.1 hx.2]

/-- C9 counterexample: with reminders 1 and 2 both due in the same poll
cycle, a send failure on reminder 1 (`sendOk 1 = false`) aborts the cycle —
no per-row handler exists in `check_reminders` — so the equally due reminder
2 is never delivered in that cycle, refuting "every other due row in that
same cycle still fires". -/
theorem reminder_cycle_abort_counterexample :
    (check_reminders (fun _ => true) (fun j => !(j == 1)) 5
      ⟨[⟨1, 7, "a", 0, none, true⟩, ⟨2, 7, "b", 0, none, true⟩], []⟩).2 = true ∧
    (check_reminders (fun _ => true) (fun j => !(j == 1)) 5
      ⟨[⟨1, 7, "a", 0, none, true⟩, ⟨2, 7, "b", 0, none, true⟩],
        []⟩).1.sent.count 2 = 0 ∧
    (⟨[⟨1, 7, "a", 0, none, true⟩, ⟨2, 7, "b", 0, none, true⟩],
        []⟩ : RemState).reminders.filter
      (fun r => r.is_active && decide (r.end_time ≤ 5)) =
      [⟨1, 7, "a", 0, none, true⟩, ⟨2, 7, "b", 0, none, true⟩] :=
  ⟨rfl, rfl, rfl⟩

/-- C9 amended: the two pollers differ, and only *caught* failures are
isolated.  In the giveaway poller, a missing channel or a Discord error from
the message round-trip is caught inside `end_giveaway` (logged) and the loop
continues, so — as long as no row hits the uncaught `IndexError` of
`message.embeds[0]` — every due row is still marked `ended = TRUE` and the
cycle completes under arbitrary channel/announcement failures.  A row whose
announcement reply succeeds but whose message carries no embed raises that
`IndexError` past both handlers and aborts the remaining due rows of the
cycle (second conjunct).  In the reminders poller `trigger_reminder` has no
per-row handler at all, so the first send failure aborts the remainder of
that cycle: rows before the failing one keep their effects, and the rows
after it are not processed in that cycle (third conjunct). -/
theorem poll_failure_isolation :
    (∀ (channelOk announceOk embedsOk : Nat → Bool) (now : Nat) (st : GwState)
      (g : GiveawayRow),
      (∀ j, embedsOk j = true) →
      (st.giveaways.map (fun x => x.id)).Nodup →
      gwRowById st g.id = some g → g.ended = false → g.end_time ≤ now →
      gwRowById (check_giveaways channelOk announceOk embedsOk now st).1 g.id =
        some { g with ended := true } ∧
      (check_giveaways channelOk announceOk embedsOk now st).2 = false) ∧
    (∀ (channelOk announceOk embedsOk : Nat → Bool) (r : GiveawayRow)
      (l1 l2 : List GiveawayRow) (st : GwState),
      channelOk r.channel_id = true → announceOk r.id = true →
      embedsOk r.id = false →
      (∀ x ∈ l1, x.id ≠ r.id) → (∀ x ∈ l1, embedsOk x.id = true) →
      gwRowById st r.id = some r → r.ended = false →
      gw_run_due channelOk announceOk embedsOk st (l1 ++ r :: l2) =
        ((end_giveaway channelOk announceOk embedsOk
          (gw_run_due channelOk announceOk embedsOk st l1).1 r.id).1, true)) ∧
    (∀ (channelOk sendOk : Nat → Bool) (r : Reminder) (l1 l2 : List Reminder)
      (st : RemState),
      channelOk r.channel_id = true → sendOk r.id = false →
      (∀ x ∈ l1, channelOk x.channel_id = true ∧ sendOk x.id = true) →
      run_due channelOk sendOk st (l1 ++ r :: l2) =
        ((run_due channelOk sendOk st l1).1, true)) := by
  refine ⟨?_, ?_, ?_⟩
  · intro channelOk announceOk embedsOk now st g hem hnodup hrow hend hdue
    obtain ⟨hfl, -, hrow', -⟩ :=
      check_giveaways_due channelOk announceOk embedsOk hem now st g hnodup
        hrow hend hdue
    exact ⟨hrow', hfl⟩
  · intro channelOk announceOk embedsOk r l1 l2 st hcr har her h1 h1e hrow hend
    exact gw_run_due_abort channelOk announceOk embedsOk r hcr har her
      l1 l2 st h1 h1e hrow hend
  · intro channelOk sendOk r l1 l2 st hcr hsr hok
    exact run_due_abort channelOk sendOk r hcr hsr l1 l2 st hok

/-- Witness for C9 amended: a due giveaway is marked ended and the cycle
completes even when both the channel lookup and the announcement fail (the
embed read never being reached); a giveaway whose announcement succeeds but
whose message has no embed aborts its cycle; and a reminders cycle whose
first row's send fails stops before the second row. -/
theorem poll_failure_isolation_witness :
    (gwRowById (check_giveaways (fun _ => false) (fun _ => false)
        (fun _ => true) 5 ⟨[⟨2, 7, "p", 1, 0, false⟩], []⟩).1 2 =
      some ⟨2, 7, "p", 1, 0, true⟩ ∧
    (check_giveaways (fun _ => false) (fun _ => false) (fun _ => true) 5
      ⟨[⟨2, 7, "p", 1, 0, false⟩], []⟩).2 = false) ∧
    gw_run_due (fun _ => true) (fun _ => true) (fun _ => false)
      ⟨[⟨3, 7, "q", 1, 0, false⟩, ⟨4, 7, "r", 1, 0, false⟩], []⟩
      ([] ++ ⟨3, 7, "q", 1, 0, false⟩ :: [⟨4, 7, "r", 1, 0, false⟩]) =
      ((end_giveaway (fun _ => true) (fun _ => true) (fun _ => false)
        (gw_run_due (fun _ => true) (fun _ => true) (fun _ => false)
          ⟨[⟨3, 7, "q", 1, 0, false⟩, ⟨4, 7, "r", 1, 0, false⟩], []⟩ []).1
        3).1, true) ∧
    run_due (fun _ => true) (fun j => !(j == 1))
      ⟨[⟨1, 7, "a", 0, none, true⟩, ⟨2, 7, "b", 0, none, true⟩], []⟩
      ([] ++ ⟨1, 7, "a", 0, none, true⟩ :: [⟨2, 7, "b", 0, none, true⟩]) =
      ((run_due (fun _ => true) (fun j => !(j == 1))
        ⟨[⟨1, 7, "a", 0, none, true⟩, ⟨2, 7, "b", 0, none, true⟩], []⟩ []).1,
        true) :=
  ⟨poll_failure_isolation.1 (fun _ => false) (fun _ => false) (fun _ => true)
      5 ⟨[⟨2, 7, "p", 1, 0, false⟩], []⟩ ⟨2, 7, "p", 1, 0, false⟩ (fun _ => rfl)
      (by simp) rfl rfl (by simp),
    poll_failure_isolation.2.1 (fun _ => true) (fun _ => true) (fun _ => false)
      ⟨3, 7, "q", 1, 0, false⟩ [] [⟨4, 7, "r", 1, 0, false⟩]
      ⟨[⟨3, 7, "q", 1, 0, false⟩, ⟨4, 7, "r", 1, 0, false⟩], []⟩ rfl rfl rfl
      (fun x hx => absurd hx (by simp)) (fun x hx => absurd hx (by simp))
      rfl rfl,
    poll_failure_isolation.2.2 (fun _ => true) (fun j => !(j == 1))
      ⟨1, 7, "a", 0, none, true⟩ [] [⟨2, 7, "b", 0, none, true⟩]
      ⟨[⟨1, 7, "a", 0, none, true⟩, ⟨2, 7, "b", 0, none, true⟩], []⟩ rfl rfl
      (fun x hx => absurd hx (by simp))⟩

/-- The per-denomination deltas of one `update_balance` call. -/
structure Deltas where
  wl : Int
  dl : Int
  bgl : Int
deriving DecidableEq, Repr

/-- The clamp of `update_balance`: `max(0, current + delta)` per
denomination. -/
def clampAdd (b : Balance) (d : Deltas) : Balance :=
  ⟨max 0 (b.wl + d.wl), max 0 (b.dl + d.dl), max 0 (b.bgl + d.bgl)⟩

/-- `clampAdd` is exactly what a successful `update_balance` returns. -/
theorem update_balance_clampAdd (st : LedgerState) (g : String) (d : Deltas)
    (details ttype : String) (b : Balance)
    (hb : lookupUser st.users g = some b) :
    (update_balance true st g d.wl d.dl d.bgl details ttype).2 =
      some (clampAdd b d) := by
  unfold update_balance clampAdd
  rw [hb]
  rfl

/-- Program counter of one in-flight `update_balance` call
(`ext/balance_manager.py:172-251`): before the
`async with await self._get_lock(f"balance_...")`; holding the lock before
the `SELECT`; after the `SELECT` with the `current` snapshot taken; after
`UPDATE` + `INSERT` + `commit`; and after releasing the lock. -/
inductive ThreadPC
  | start
  | locked
  | readDone
  | written
  | done
deriving DecidableEq, Repr

/-- One thread: its program counter and its local `current` snapshot. -/
structure ThreadSt where
  pc : ThreadPC
  loc : Balance
deriving DecidableEq, Repr

/-- Two concurrent `update_balance` calls (A and B) on the same account:
the account's stored balance, the per-account `asyncio.Lock` (`lockHeld` is
the holder; `none` = free), and both threads. -/
structure ConcState where
  bal : Balance
  lockHeld : Option Bool
  tA : ThreadSt
  tB : ThreadSt
deriving DecidableEq, Repr

/-- Replace thread `t`'s state. -/
def setThread (c : ConcState) (t : Bool) (th : ThreadSt) : ConcState :=
  if t then { c with tA := th } else { c with tB := th }

/-- Thread `t`'s state. -/
def threadOf (c : ConcState) (t : Bool) : ThreadSt :=
  if t then c.tA else c.tB

/-- Thread `t`'s deltas. -/
def deltaOf (dA dB : Deltas) (t : Bool) : Deltas :=
  if t then dA else dB

/-- One scheduler step of thread `t`, following the code regions of
`update_balance`: lock acquisition blocks (is a no-op) while the other
thread holds the per-account lock; the read copies the stored balance into
the local snapshot; the write stores `clampAdd` of the snapshot; the exit of
the `async with` releases the lock.  A finished thread does nothing. -/
def step (dA dB : Deltas) (c : ConcState) (t : Bool) : ConcState :=
  match (threadOf c t).pc with
  | ThreadPC.start =>
      match c.lockHeld with
      | none =>
          { setThread c t { threadOf c t with pc := ThreadPC.locked } with
            lockHeld := some t }
      | some _ => c
  | ThreadPC.locked =>
      setThread c t { threadOf c t with pc := ThreadPC.readDone, loc := c.bal }
  | ThreadPC.readDone =>
      { setThread c t { threadOf c t with pc := ThreadPC.written } with
        bal := clampAdd (threadOf c t).loc (deltaOf dA dB t) }
  | ThreadPC.written =>
      { setThread c t { threadOf c t with pc := ThreadPC.done } with
        lockHeld := none }
  | ThreadPC.done => c

/-- Run a schedule (an arbitrary interleaving of the two threads). -/
def runSched (dA dB : Deltas) (c : ConcState) (sched : List Bool) : ConcState :=
  sched.foldl (step dA dB) c

/-- Both calls start outside the critical section with the lock free and the
account at balance `b0`. -/
def initConc (b0 : Balance) : ConcState :=
  ⟨b0, none, ⟨ThreadPC.start, ⟨0, 0, 0⟩⟩, ⟨ThreadPC.start, ⟨0, 0, 0⟩⟩⟩

/-- Thread has already performed its store write. -/
def wrote (th : ThreadSt) : Prop :=
  th.pc = ThreadPC.written ∨ th.pc = ThreadPC.done

/-- Thread is inside the critical section (holds the lock). -/
def inCrit (th : ThreadSt) : Prop :=
  th.pc = ThreadPC.locked ∨ th.pc = ThreadPC.readDone ∨ th.pc = ThreadPC.written

/-- The inductive invariant of the two-thread lock system: the lock holder is
exactly the thread inside the critical section; a thread that has read but
not written holds a snapshot equal to the stored balance; and the stored
balance is determined by which threads have written, in some order. -/
structure ConcInv (b0 : Balance) (dA dB : Deltas) (c : ConcState) : Prop where
  lockA : c.lockHeld = some true ↔ inCrit c.tA
  lockB : c.lockHeld = some false ↔ inCrit c.tB
  locA : c.tA.pc = ThreadPC.readDone → c.tA.loc = c.bal
  locB : c.tB.pc = ThreadPC.readDone → c.tB.loc = c.bal
  bal00 : ¬ wrote c.tA → ¬ wrote c.tB → c.bal = b0
  bal10 : wrote c.tA → ¬ wrote c.tB → c.bal = clampAdd b0 dA
  bal01 : ¬ wrote c.tA → wrote c.tB → c.bal = clampAdd b0 dB
  bal11 : wrote c.tA → wrote c.tB →
    c.bal = clampAdd (clampAdd b0 dA) dB ∨ c.bal = clampAdd (clampAdd b0 dB) dA

theorem step_start_free (dA dB : Deltas) (c : ConcState) (t : Bool)
    (hpc : (threadOf c t).pc = ThreadPC.start) (hl : c.lockHeld = none) :
    step dA dB c t =
      { setThread c t { threadOf c t with pc := ThreadPC.locked } with
        lockHeld := some t } := by
  unfold step
  rw [hpc, hl]

theorem step_start_blocked (dA dB : Deltas) (c : ConcState) (t : Bool)
    (hpc : (threadOf c t).pc = ThreadPC.start) (b : Bool)
    (hl : c.lockHeld = some b) :
    step dA dB c t = c := by
  unfold step
  rw [hpc, hl]

theorem step_locked (dA dB : Deltas) (c : ConcState) (t : Bool)
    (hpc : (threadOf c t).pc = ThreadPC.locked) :
    step dA dB c t =
      setThread c t { threadOf c t with pc := ThreadPC.readDone, loc := c.bal } := by
  unfold step
  rw [hpc]

theorem step_readDone (dA dB : Deltas) (c : ConcState) (t : Bool)
    (hpc : (threadOf c t).pc = ThreadPC.readDone) :
    step dA dB c t =
      { setThread c t { threadOf c t with pc := ThreadPC.written } with
        bal := clampAdd (threadOf c t).loc (deltaOf dA dB t) } := by
  unfold step
  rw [hpc]

theorem step_written (dA dB : Deltas) (c : ConcState) (t : Bool)
    (hpc : (threadOf c t).pc = ThreadPC.written) :
    step dA dB c t =
      { setThread c t { threadOf c t with pc := ThreadPC.done } with
        lockHeld := none } := by
  unfold step
  rw [hpc]

theorem step_done (dA dB : Deltas) (c : ConcState) (t : Bool)
    (hpc : (threadOf c t).pc = ThreadPC.done) :
    step dA dB c t = c := by
  unfold step
  rw [hpc]

theorem threadOf_true (c : ConcState) : threadOf c true = c.tA := rfl

theorem threadOf_false (c : ConcState) : threadOf c false = c.tB := rfl

theorem setThread_true (c : ConcState) (th : ThreadSt) :
    setThread c true th = { c with tA := th } := rfl

theorem setThread_false (c : ConcState) (th : ThreadSt) :
    setThread c false th = { c with tB := th } := rfl

theorem deltaOf_true (dA dB : Deltas) : deltaOf dA dB true = dA := rfl

theorem deltaOf_false (dA dB : Deltas) : deltaOf dA dB false = dB := rfl

theorem concInv_init (b0 : Balance) (dA dB : Deltas) :
    ConcInv b0 dA dB (initConc b0) := by
  constructor <;> simp [initConc, inCrit, wrote]

theorem concInv_step (b0 : Balance) (dA dB : Deltas) (c : ConcState) (t : Bool)
    (h : ConcInv b0 dA dB c) : ConcInv b0 dA dB (step dA dB c t) := by
  cases t with
  | true =>
    cases hpc : c.tA.pc with
    | start =>
      cases hl : c.lockHeld with
      | none =>
        rw [step_start_free dA dB c true hpc hl, threadOf_true, setThread_true]
        have hnB : ¬ inCrit c.tB := by
          intro hB
          have h2 := (hl.symm.trans (h.lockB.mpr hB))
          simp at h2
        constructor
        · exact ⟨fun _ => Or.inl rfl, fun _ => rfl⟩
        · exact ⟨fun hx => absurd (Option.some.inj hx) (by simp),
            fun hB => absurd hB hnB⟩
        · intro hx
          exact ThreadPC.noConfusion hx
        · exact h.locB
        · intro _ h2
          exact h.bal00 (by simp [wrote, hpc]) h2
        · intro h1 _
          exact absurd h1 (by simp [wrote])
        · intro _ h2
          exact h.bal01 (by simp [wrote, hpc]) h2
        · intro h1 _
          exact absurd h1 (by simp [wrote])
      | some b =>
        rw [step_start_blocked dA dB c true hpc b hl]
        exact h
    | locked =>
      have hlock : c.lockHeld = some true := h.lockA.mpr (Or.inl hpc)
      have hnB : ¬ inCrit c.tB := by
        intro hB
        have h2 := (h.lockB.mpr hB).symm.trans hlock
        simp at h2
      rw [step_locked dA dB c true hpc, threadOf_true, setThread_true]
      constructor
      · exact ⟨fun _ => Or.inr (Or.inl rfl), fun _ => hlock⟩
      · exact ⟨fun hx => absurd ((hlock.symm.trans hx)) (by simp),
          fun hB => absurd hB hnB⟩
      · intro _
        rfl
      · intro hx
        exact absurd (Or.inr (Or.inl hx)) hnB
      · intro _ h2
        exact h.bal00 (by simp [wrote, hpc]) h2
      · intro h1 _
        exact absurd h1 (by simp [wrote])
      · intro _ h2
        exact h.bal01 (by simp [wrote, hpc]) h2
      · intro h1 _
        exact absurd h1 (by simp [wrote])
    | readDone =>
      have hlock : c.lockHeld = some true := h.lockA.mpr (Or.inr (Or.inl hpc))
      have hloc : c.tA.loc = c.bal := h.locA hpc
      have hnB : ¬ inCrit c.tB := by
        intro hB
        have h2 := (h.lockB.mpr hB).symm.trans hlock
        simp at h2
      rw [step_readDone dA dB c true hpc, threadOf_true, setThread_true,
        deltaOf_true]
      constructor
      · exact ⟨fun _ => Or.inr (Or.inr rfl), fun _ => hlock⟩
      · exact ⟨fun hx => absurd ((hlock.symm.trans hx)) (by simp),
          fun hB => absurd hB hnB⟩
      · intro hx
        exact ThreadPC.noConfusion hx
      · intro hx
        exact absurd (Or.inr (Or.inl hx)) hnB
      · intro h1 _
        exact absurd (Or.inl rfl) h1
      · intro _ h2
        have hb0 : c.bal = b0 := h.bal00 (by simp [wrote, hpc]) h2
        show clampAdd c.tA.loc dA = clampAdd b0 dA
        rw [hloc, hb0]
      · intro h1 _
        exact absurd (Or.inl rfl) h1
      · intro _ h2
        have hBdone : c.tB.pc = ThreadPC.done := by
          cases hb : c.tB.pc with
          | start => rw [wrote, hb] at h2; simp at h2
          | locked => exact absurd (Or.inl hb) hnB
          | readDone => exact absurd (Or.inr (Or.inl hb)) hnB
          | written => exact absurd (Or.inr (Or.inr hb)) hnB
          | done => rfl
        have hbB : c.bal = clampAdd b0 dB := h.bal01 (by simp [wrote, hpc]) h2
        right
        show clampAdd c.tA.loc dA = clampAdd (clampAdd b0 dB) dA
        rw [hloc, hbB]
    | written =>
      have hlock : c.lockHeld = some true := h.lockA.mpr (Or.inr (Or.inr hpc))
      have hnB : ¬ inCrit c.tB := by
        intro hB
        have h2 := (h.lockB.mpr hB).symm.trans hlock
        simp at h2
      rw [step_written dA dB c true hpc, threadOf_true, setThread_true]
      constructor
      · exact ⟨fun hx => absurd hx (by simp),
          fun hB => absurd hB (by simp [inCrit])⟩
      · exact ⟨fun hx => absurd hx (by simp), fun hB => absurd hB hnB⟩
      · intro hx
        exact ThreadPC.noConfusion hx
      · intro hx
        exact absurd (Or.inr (Or.inl hx)) hnB
      · intro h1 _
        exact absurd (Or.inr rfl) h1
      · intro _ h2
        exact h.bal10 (Or.inl hpc) h2
      · intro h1 _
        exact absurd (Or.inr rfl) h1
      · intro _ h2
        exact h.bal11 (Or.inl hpc) h2
    | done =>
      rw [step_done dA dB c true hpc]
      exact h
  | false =>
    cases hpc : c.tB.pc with
    | start =>
      cases hl : c.lockHeld with
      | none =>
        rw [step_start_free dA dB c false hpc hl, threadOf_false, setThread_false]
        have hnA : ¬ inCrit c.tA := by
          intro hA
          have h2 := (hl.symm.trans (h.lockA.mpr hA))
          simp at h2
        constructor
        · exact ⟨fun hx => absurd (Option.some.inj hx) (by simp),
            fun hA => absurd hA hnA⟩
        · exact ⟨fun _ => Or.inl rfl, fun _ => rfl⟩
        · exact h.locA
        · intro hx
          exact ThreadPC.noConfusion hx
        · intro h1 _
          exact h.bal00 h1 (by simp [wrote, hpc])
        · intro h1 h2
          exact h.bal10 h1 (by simp [wrote, hpc])
        · intro _ h2
          exact absurd h2 (by simp [wrote])
        · intro _ h2
          exact absurd h2 (by simp [wrote])
      | some b =>
        rw [step_start_blocked dA dB c false hpc b hl]
        exact h
    | locked =>
      have hlock : c.lockHeld = some false := h.lockB.mpr (Or.inl hpc)
      have hnA : ¬ inCrit c.tA := by
        intro hA
        have h2 := (h.lockA.mpr hA).symm.trans hlock
        simp at h2
      rw [step_locked dA dB c false hpc, threadOf_false, setThread_false]
      constructor
      · exact ⟨fun hx => absurd ((hlock.symm.trans hx)) (by simp),
          fun hA => absurd hA hnA⟩
      · exact ⟨fun _ => Or.inr (Or.inl rfl), fun _ => hlock⟩
      · intro hx
        exact absurd (Or.inr (Or.inl hx)) hnA
      · intro _
        rfl
      · intro h1 _
        exact h.bal00 h1 (by simp [wrote, hpc])
      · intro h1 _
        exact h.bal10 h1 (by simp [wrote, hpc])
      · intro _ h2
        exact absurd h2 (by simp [wrote])
      · intro _ h2
        exact absurd h2 (by simp [wrote])
    | readDone =>
      have hlock : c.lockHeld = some false := h.lockB.mpr (Or.inr (Or.inl hpc))
      have hloc : c.tB.loc = c.bal := h.locB hpc
      have hnA : ¬ inCrit c.tA := by
        intro hA
        have h2 := (h.lockA.mpr hA).symm.trans hlock
        simp at h2
      rw [step_readDone dA dB c false hpc, threadOf_false, setThread_false,
        deltaOf_false]
      constructor
      · exact ⟨fun hx => absurd ((hlock.symm.trans hx)) (by simp),
          fun hA => absurd hA hnA⟩
      · exact ⟨fun _ => Or.inr (Or.inr rfl), fun _ => hlock⟩
      · intro hx
        exact absurd (Or.inr (Or.inl hx)) hnA
      · intro hx
        exact ThreadPC.noConfusion hx
      · intro _ h2
        exact absurd (Or.inl rfl) h2
      · intro h1 h2
        exact absurd (Or.inl rfl) h2
      · intro h1 _
        have hb0 : c.bal = b0 := h.bal00 h1 (by simp [wrote, hpc])
        show clampAdd c.tB.loc dB = clampAdd b0 dB
        rw [hloc, hb0]
      · intro h1 _
        have hAdone : c.tA.pc = ThreadPC.done := by
          cases ha : c.tA.pc with
          | start => rw [wrote, ha] at h1; simp at h1
          | locked => exact absurd (Or.inl ha) hnA
          | readDone => exact absurd (Or.inr (Or.inl ha)) hnA
          | written => exact absurd (Or.inr (Or.inr ha)) hnA
          | done => rfl
        have hbA : c.bal = clampAdd b0 dA := h.bal10 h1 (by simp [wrote, hpc])
        left
        show clampAdd c.tB.loc dB = clampAdd (clampAdd b0 dA) dB
        rw [hloc, hbA]
    | written =>
      have hlock : c.lockHeld = some false := h.lockB.mpr (Or.inr (Or.inr hpc))
      have hnA : ¬ inCrit c.tA := by
        intro hA
        have h2 := (h.lockA.mpr hA).symm.trans hlock
        simp at h2
      rw [step_written dA dB c false hpc, threadOf_false, setThread_false]
      constructor
      · exact ⟨fun hx => absurd hx (by simp), fun hA => absurd hA hnA⟩
      · exact ⟨fun hx => absurd hx (by simp),
          fun hB => absurd hB (by simp [inCrit])⟩
      · intro hx
        exact absurd (Or.inr (Or.inl hx)) hnA
      · intro hx
        exact ThreadPC.noConfusion hx
      · intro _ h2
        exact absurd (Or.inr rfl) h2
      · intro h1 h2
        exact absurd (Or.inr rfl) h2
      · intro h1 _
        exact h.bal01 h1 (Or.inl hpc)
      · intro h1 _
        exact h.bal11 h1 (Or.inl hpc)
    | done =>
      rw [step_done dA dB c false hpc]
      exact h

theorem concInv_run (b0 : Balance) (dA dB : Deltas) :
    ∀ (sched : List Bool) (c : ConcState), ConcInv b0 dA dB c →
      ConcInv b0 dA dB (runSched dA dB c sched) := by
  intro sched
  induction sched with
  | nil => exact fun c h => h
  | cons t rest ih =>
    intro c h
    exact ih (step dA dB c t) (concInv_step b0 dA dB c t h)

/-- C3: two concurrent `update_balance` calls on the same account, serialized
by the per-account lock: under *every* interleaving in which both calls
complete, the final stored balance is the clamp applied to both deltas in
some order — `clampAdd (clampAdd b0 dA) dB` or `clampAdd (clampAdd b0 dB) dA`
— never a lost update in which only one delta took effect.  The second
conjunct ties the model's `clampAdd` to the real `update_balance`: a
successful call returns exactly `clampAdd` of the balance it read. -/
theorem lock_serializes_concurrent_updates :
    (∀ (b0 : Balance) (dA dB : Deltas) (sched : List Bool),
      (runSched dA dB (initConc b0) sched).tA.pc = ThreadPC.done →
      (runSched dA dB (initConc b0) sched).tB.pc = ThreadPC.done →
      (runSched dA dB (initConc b0) sched).bal = clampAdd (clampAdd b0 dA) dB ∨
      (runSched dA dB (initConc b0) sched).bal = clampAdd (clampAdd b0 dB) dA) ∧
    (∀ (st : LedgerState) (g : String) (d : Deltas) (details ttype : String)
      (b : Balance),
      lookupUser st.users g = some b →
      (update_balance true st g d.wl d.dl d.bgl details ttype).2 =
        some (clampAdd b d)) := by
  constructor
  · intro b0 dA dB sched hA hB
    have hinv := concInv_run b0 dA dB sched (initConc b0) (concInv_init b0 dA dB)
    exact hinv.bal11 (Or.inr hA) (Or.inr hB)
  · intro st g d details ttype b hb
    exact update_balance_clampAdd st g d details ttype b hb

/-- Witness for C3: the spec's end-to-end scenario 2 — two concurrent -60 WL
mutations against a balance of 100, thread A scheduled first — ends at
`max(0, max(0, 100-60) - 60) = 0`, one of the two serialized outcomes. -/
theorem lock_serializes_concurrent_updates_witness :
    ((runSched ⟨-60, 0, 0⟩ ⟨-60, 0, 0⟩ (initConc ⟨100, 0, 0⟩)
        [true, true, true, true, false, false, false, false]).bal =
      clampAdd (clampAdd ⟨100, 0, 0⟩ ⟨-60, 0, 0⟩) ⟨-60, 0, 0⟩ ∨
    (runSched ⟨-60, 0, 0⟩ ⟨-60, 0, 0⟩ (initConc ⟨100, 0, 0⟩)
        [true, true, true, true, false, false, false, false]).bal =
      clampAdd (clampAdd ⟨100, 0, 0⟩ ⟨-60, 0, 0⟩) ⟨-60, 0, 0⟩) ∧
    (update_balance true ⟨[("Alice", ⟨100, 0, 0⟩)], [], []⟩ "Alice" (-60) 0 0
      "d" "t").2 = some (clampAdd ⟨100, 0, 0⟩ ⟨-60, 0, 0⟩) :=
  ⟨lock_serializes_concurrent_updates.1 ⟨100, 0, 0⟩ ⟨-60, 0, 0⟩ ⟨-60, 0, 0⟩
      [true, true, true, true, false, false, false, false] (by decide) (by decide),
    lock_serializes_concurrent_updates.2 ⟨[("Alice", ⟨100, 0, 0⟩)], [], []⟩
      "Alice" ⟨-60, 0, 0⟩ "d" "t" ⟨100, 0, 0⟩ rfl⟩
